import Mathlib

/-
Shallow embedding of the kitty-fb membership and inventory engine
(the Firestore service layer of functions/src/services/firestore.ts and
its validators in functions/src/utils/validators.ts).

Modelling conventions:
- Firestore documents become records in lists; auto-generated document ids
  become values of a per-database counter nextId, allocated in call order.
- Timestamps (new Date(), purchasedAt, joinedAt, ...) become a logical
  clock db.now, constant during one operation and advanced between
  operations; updatedAt audit fields are not tracked since no observable
  behaviour reads them.
- JS numbers holding money become Int, unit counts become Nat.
- A thrown Error becomes an Err value; each operation returns its result
  together with the database as it stands when the operation ends, so a
  write performed before a later throw is kept, exactly as the sequential
  semantics of the source (awaited writes persist when a later await
  throws).
-/

namespace KittyFB

/-- Status of a bucket: the source stores the strings "active" and
"completed". -/
inductive BucketStatus where
  | active
  | completed
deriving DecidableEq, Repr

/-- Status of a join request: "pending", "approved" or "denied". -/
inductive ReqStatus where
  | pending
  | approved
  | denied
deriving DecidableEq, Repr

/-- One membership mirror document.  The same payload is stored under
users/u/groups/g and groups/g/members/u. -/
structure MemberDoc where
  balance : Int
  isAdmin : Bool
  activeBucketId : Option Nat
  joinedAt : Nat
deriving DecidableEq, Repr

/-- A bucket document in groups/g/buckets.  purchaseBatchId models the
string batch_TIMESTAMP_USERID as the pair (timestamp, userId). -/
structure Bucket where
  id : Nat
  groupId : Nat
  userId : Nat
  unitsInBucket : Nat
  remainingUnits : Nat
  status : BucketStatus
  purchasedAt : Nat
  purchaseBatchId : Nat × Nat
deriving DecidableEq, Repr

/-- A consumption record in groups/g/consumption. -/
structure Consumption where
  id : Nat
  groupId : Nat
  userId : Nat
  units : Nat
  bucketId : Nat
  consumedAt : Nat
deriving DecidableEq, Repr

/-- A kitty transaction in groups/g/transactions. -/
structure KittyTx where
  id : Nat
  groupId : Nat
  userId : Nat
  amount : Int
  comment : String
  createdAt : Nat
deriving DecidableEq, Repr

/-- A join request in groups/g/join_requests.  adminUserId, processedAt
and reason are absent until the request is processed. -/
structure JoinRequest where
  id : Nat
  groupId : Nat
  userId : Nat
  message : String
  status : ReqStatus
  createdAt : Nat
  adminUserId : Option Nat
  processedAt : Option Nat
  reason : Option String
deriving DecidableEq, Repr

/-- A group root document. -/
structure GroupRec where
  id : Nat
  name : String
  kittyBalance : Int
  createdAt : Nat
deriving DecidableEq, Repr

/-- The whole database.  userGroups holds the user-side membership
mirrors keyed (userId, groupId); groupMembers holds the group-side
mirrors keyed (groupId, userId). -/
structure DB where
  users : List Nat
  groups : List GroupRec
  userGroups : List (Nat × Nat × MemberDoc)
  groupMembers : List (Nat × Nat × MemberDoc)
  buckets : List Bucket
  consumptions : List Consumption
  transactions : List KittyTx
  joinRequests : List JoinRequest
  nextId : Nat
  now : Nat
deriving DecidableEq, Repr

/-- The empty database. -/
def DB.empty : DB :=
  { users := [], groups := [], userGroups := [], groupMembers := [],
    buckets := [], consumptions := [], transactions := [],
    joinRequests := [], nextId := 0, now := 0 }

/-- The typed failures thrown by the engine.  Each constructor carries the
payload the source interpolates into the error message. -/
inductive Err where
  | userNotFound
  | groupNotFound
  | alreadyMember
  | notMember
  | groupAlreadyHasAdmin
  | notAdmin
  | noActiveBucket
  | bucketNotFound
  | insufficientUnits (available requested : Nat)
  | amountZero
  | positiveBalanceRejected (maxPayment : Int)
  | nonPositiveAmount
  | duplicateRequest
  | requestNotFound
  | requestNotPending
deriving DecidableEq, Repr

/-- Lookup of a mirror document keyed (a, b) in a mirror collection. -/
def findMirror (l : List (Nat × Nat × MemberDoc)) (a b : Nat) : Option MemberDoc :=
  (l.find? (fun e => e.1 == a && e.2.1 == b)).map (fun e => e.2.2)

/-- Lookup of the user-side mirror users/u/groups/g. -/
def findUserGroup (db : DB) (userId groupId : Nat) : Option MemberDoc :=
  findMirror db.userGroups userId groupId

/-- Lookup of the group-side mirror groups/g/members/u. -/
def findGroupMember (db : DB) (groupId userId : Nat) : Option MemberDoc :=
  findMirror db.groupMembers groupId userId

/-- Field update of the mirror document keyed (a, b), a no-op when the
document is absent (all call sites validate existence first). -/
def modMirror (l : List (Nat × Nat × MemberDoc)) (a b : Nat) (f : MemberDoc → MemberDoc) :
    List (Nat × Nat × MemberDoc) :=
  l.map (fun e => if e.1 == a && e.2.1 == b then (e.1, e.2.1, f e.2.2) else e)

/-- Document set (create or overwrite) of the mirror keyed (a, b). -/
def putMirror (l : List (Nat × Nat × MemberDoc)) (a b : Nat) (d : MemberDoc) :
    List (Nat × Nat × MemberDoc) :=
  if l.any (fun e => e.1 == a && e.2.1 == b) then modMirror l a b (fun _ => d)
  else l ++ [(a, b, d)]

/-- The members subcollection of group g read from a group-side mirror
collection. -/
def membersOfL (l : List (Nat × Nat × MemberDoc)) (groupId : Nat) : List (Nat × MemberDoc) :=
  l.filterMap (fun e => if e.1 == groupId then some (e.2.1, e.2.2) else none)

/-- The group-side members subcollection of group g. -/
def membersOf (db : DB) (groupId : Nat) : List (Nat × MemberDoc) :=
  membersOfL db.groupMembers groupId

/-- Count of admin membership documents among the members of g in a
group-side mirror collection. -/
def adminCountL (l : List (Nat × Nat × MemberDoc)) (groupId : Nat) : Nat :=
  ((membersOfL l groupId).filter (fun m => m.2.isAdmin)).length

/-- Count of admin membership documents among the members of g, the
quantity scanned by validateSingleAdmin. -/
def adminCount (db : DB) (groupId : Nat) : Nat :=
  adminCountL db.groupMembers groupId

/-- Lookup of the group root document. -/
def findGroup (db : DB) (groupId : Nat) : Option GroupRec :=
  db.groups.find? (fun r => r.id == groupId)

/-- Lookup of the bucket document groups/g/buckets/b. -/
def findBucketIn (db : DB) (groupId bucketId : Nat) : Option Bucket :=
  db.buckets.find? (fun b => b.id == bucketId && b.groupId == groupId)

/-- Field update of a bucket document, no-op when absent. -/
def modBucket (l : List Bucket) (groupId bucketId : Nat) (f : Bucket → Bucket) : List Bucket :=
  l.map (fun b => if b.id == bucketId && b.groupId == groupId then f b else b)

/-- The ordering used by the Firestore query orderBy purchasedAt asc:
documents with equal purchasedAt are returned in document-id order. -/
def bucketOrder (a b : Bucket) : Prop :=
  a.purchasedAt < b.purchasedAt ∨ (a.purchasedAt = b.purchasedAt ∧ a.id ≤ b.id)

instance : DecidableRel bucketOrder := fun a b => by
  unfold bucketOrder; infer_instance

instance : IsTotal Bucket bucketOrder :=
  ⟨by intro a b; unfold bucketOrder; omega⟩

instance : IsTrans Bucket bucketOrder :=
  ⟨by intro a b c; unfold bucketOrder; omega⟩

/-- The query of recordConsumption: this user's buckets in this group
with status active. -/
def activeBucketsOf (db : DB) (groupId userId : Nat) : List Bucket :=
  db.buckets.filter (fun b =>
    b.groupId == groupId && b.userId == userId && b.status == BucketStatus.active)

/-- selectNextActive: among this user's active buckets ordered by
purchasedAt ascending, the first one that is not the excluded bucket and
still has remaining units, or none. -/
def nextActiveBucketId (db : DB) (groupId userId excludeBucketId : Nat) : Option Nat :=
  let ordered := (activeBucketsOf db groupId userId).insertionSort bucketOrder
  ((ordered.filter (fun b => b.id != excludeBucketId && b.remainingUnits != 0)).head?).map
    (fun b => b.id)

/-- createUser: allocates a user document. -/
def createUser (db : DB) : Nat × DB :=
  (db.nextId, { db with users := db.users ++ [db.nextId], nextId := db.nextId + 1 })

/-- createGroup: allocates a group document with kittyBalance 0. -/
def createGroup (db : DB) (name : String) : Nat × DB :=
  (db.nextId,
   { db with
     groups := db.groups ++ [{ id := db.nextId, name := name, kittyBalance := 0,
                               createdAt := db.now }],
     nextId := db.nextId + 1 })

/-- The two mirror writes of addUserToGroup: balance 0, no active
bucket, joinedAt now. -/
def writeMembership (db : DB) (userId groupId : Nat) (shouldBeAdmin : Bool) : DB :=
  let d : MemberDoc :=
    { balance := 0, isAdmin := shouldBeAdmin, activeBucketId := none, joinedAt := db.now }
  { db with
    userGroups := putMirror db.userGroups userId groupId d,
    groupMembers := putMirror db.groupMembers groupId userId d }

/-- addUserToGroup (join).  validateUserNotInGroup checks only the two
mirror documents; if the group has no members the new member is forced
admin, otherwise an explicit admin request is checked against the
current admin count by validateSingleAdmin. -/
def addUserToGroup (db : DB) (userId groupId : Nat) (isAdmin : Option Bool) :
    Except Err Unit × DB :=
  if (findUserGroup db userId groupId).isSome || (findGroupMember db groupId userId).isSome then
    (.error .alreadyMember, db)
  else if (membersOf db groupId).isEmpty then
    (.ok (), writeMembership db userId groupId true)
  else if isAdmin = some true then
    if adminCount db groupId > 0 then (.error .groupAlreadyHasAdmin, db)
    else (.ok (), writeMembership db userId groupId true)
  else
    (.ok (), writeMembership db userId groupId false)

/-- purchaseBuckets: creates bucketCount buckets of unitsPerBucket units
each, all active, sharing one purchase batch id, and sets the active
bucket to the first created one when none was set. -/
def purchaseBuckets (db : DB) (groupId userId bucketCount unitsPerBucket : Nat) :
    Except Err (List Nat) × DB :=
  match findUserGroup db userId groupId, findGroupMember db groupId userId with
  | some uDoc, some _ =>
    let bucketIds := (List.range bucketCount).map (fun i => db.nextId + i)
    let newBuckets := bucketIds.map (fun i =>
      { id := i, groupId := groupId, userId := userId,
        unitsInBucket := unitsPerBucket, remainingUnits := unitsPerBucket,
        status := BucketStatus.active, purchasedAt := db.now,
        purchaseBatchId := (db.now, userId) : Bucket })
    let newActive : Option Nat :=
      match uDoc.activeBucketId with
      | some b => some b
      | none => bucketIds.head?
    (.ok bucketIds,
     { db with
       buckets := db.buckets ++ newBuckets,
       userGroups := modMirror db.userGroups userId groupId
         (fun d => { d with activeBucketId := newActive }),
       groupMembers := modMirror db.groupMembers groupId userId
         (fun d => { d with activeBucketId := newActive }),
       nextId := db.nextId + bucketCount })
  | _, _ => (.error .notMember, db)

/-- updateUserBalance (adjustBalance): admin-gated debt adjustment; the
new balance may never be positive, and the error carries
Math.abs(currentBalance) as the maximum allowed payment. -/
def updateUserBalance (db : DB) (groupId userId : Nat) (amount : Int) (adminUserId : Nat) :
    Except Err Unit × DB :=
  match findUserGroup db userId groupId, findGroupMember db groupId userId with
  | some uDoc, some _ =>
    match findUserGroup db adminUserId groupId, findGroupMember db groupId adminUserId with
    | some _, some aDoc =>
      if aDoc.isAdmin then
        if amount = 0 then (.error .amountZero, db)
        else
          let currentBalance := uDoc.balance
          let newBalance := currentBalance + amount
          if newBalance > 0 then (.error (.positiveBalanceRejected |currentBalance|), db)
          else
            (.ok (),
             { db with
               userGroups := modMirror db.userGroups userId groupId
                 (fun d => { d with balance := newBalance }),
               groupMembers := modMirror db.groupMembers groupId userId
                 (fun d => { d with balance := newBalance }) })
      else (.error .notAdmin, db)
    | _, _ => (.error .notMember, db)
  | _, _ => (.error .notMember, db)

/-- recordConsumption (consume): draws units from the active bucket; when
the bucket empties it is completed and the active pointer moves to the
next bucket chosen by the selectNextActive query, run against the state
before the writes are applied. -/
def recordConsumption (db : DB) (groupId userId units : Nat) : Except Err Unit × DB :=
  match findUserGroup db userId groupId, findGroupMember db groupId userId with
  | some uDoc, some _ =>
    match uDoc.activeBucketId with
    | none => (.error .noActiveBucket, db)
    | some bucketId =>
      match findBucketIn db groupId bucketId with
      | none => (.error .bucketNotFound, db)
      | some bk =>
        if bk.remainingUnits < units then
          (.error (.insufficientUnits bk.remainingUnits units), db)
        else
          let newRemainingUnits := bk.remainingUnits - units
          let rec0 : Consumption :=
            { id := db.nextId, groupId := groupId, userId := userId,
              units := units, bucketId := bucketId, consumedAt := db.now }
          if newRemainingUnits = 0 then
            let next := nextActiveBucketId db groupId userId bucketId
            (.ok (),
             { db with
               consumptions := db.consumptions ++ [rec0],
               buckets := modBucket db.buckets groupId bucketId
                 (fun b => { b with remainingUnits := 0, status := BucketStatus.completed }),
               userGroups := modMirror db.userGroups userId groupId
                 (fun d => { d with activeBucketId := next }),
               groupMembers := modMirror db.groupMembers groupId userId
                 (fun d => { d with activeBucketId := next }),
               nextId := db.nextId + 1 })
          else
            (.ok (),
             { db with
               consumptions := db.consumptions ++ [rec0],
               buckets := modBucket db.buckets groupId bucketId
                 (fun b => { b with remainingUnits := newRemainingUnits }),
               nextId := db.nextId + 1 })
  | _, _ => (.error .notMember, db)

/-- createKittyTransaction (contribute): appends a transaction and writes
back kittyBalance + amount, computed from the kittyBalance read in this
call (read-then-write, no atomic increment primitive in the source). -/
def createKittyTransaction (db : DB) (groupId userId : Nat) (amount : Int)
    (comment : Option String) : Except Err Nat × DB :=
  match findUserGroup db userId groupId, findGroupMember db groupId userId with
  | some _, some _ =>
    if amount ≤ 0 then (.error .nonPositiveAmount, db)
    else
      match findGroup db groupId with
      | none => (.error .groupNotFound, db)
      | some grp =>
        let newKittyBalance := grp.kittyBalance + amount
        let tx : KittyTx :=
          { id := db.nextId, groupId := groupId, userId := userId, amount := amount,
            comment := comment.getD "", createdAt := db.now }
        (.ok db.nextId,
         { db with
           groups := db.groups.map (fun r =>
             if r.id == groupId then { r with kittyBalance := newKittyBalance } else r),
           transactions := db.transactions ++ [tx],
           nextId := db.nextId + 1 })
  | _, _ => (.error .notMember, db)

/-- The pending join requests of the pair (groupId, userId) in a request
collection. -/
def pendingForL (rs : List JoinRequest) (groupId userId : Nat) : List JoinRequest :=
  rs.filter (fun r =>
    r.groupId == groupId && r.userId == userId && r.status == ReqStatus.pending)

/-- The pending join requests of the pair (groupId, userId), the set
queried by createJoinRequest. -/
def pendingRequestsFor (db : DB) (groupId userId : Nat) : List JoinRequest :=
  pendingForL db.joinRequests groupId userId

/-- createJoinRequest (request): rejects members and duplicate pending
requests, otherwise appends a pending request. -/
def createJoinRequest (db : DB) (groupId userId : Nat) (message : Option String) :
    Except Err Nat × DB :=
  match findGroup db groupId with
  | none => (.error .groupNotFound, db)
  | some _ =>
    if (findUserGroup db userId groupId).isSome || (findGroupMember db groupId userId).isSome then
      (.error .alreadyMember, db)
    else if (pendingRequestsFor db groupId userId).isEmpty then
      (.ok db.nextId,
       { db with
         joinRequests := db.joinRequests ++
           [{ id := db.nextId, groupId := groupId, userId := userId,
              message := message.getD "", status := ReqStatus.pending,
              createdAt := db.now, adminUserId := none, processedAt := none,
              reason := none }],
         nextId := db.nextId + 1 })
    else (.error .duplicateRequest, db)

/-- Lookup of the join request groups/g/join_requests/r. -/
def findJoinRequest (db : DB) (groupId reqId : Nat) : Option JoinRequest :=
  db.joinRequests.find? (fun r => r.id == reqId && r.groupId == groupId)

/-- approveJoinRequest: checks request presence, pending status and admin
rights, then first marks the request approved and only afterwards calls
addUserToGroup; a failure of that call keeps the approved mark. -/
def approveJoinRequest (db : DB) (groupId reqId adminUserId : Nat) (reason : Option String) :
    Except Err Unit × DB :=
  match findGroup db groupId with
  | none => (.error .groupNotFound, db)
  | some _ =>
    match findJoinRequest db groupId reqId with
    | none => (.error .requestNotFound, db)
    | some req =>
      if req.status ≠ ReqStatus.pending then (.error .requestNotPending, db)
      else
        match findUserGroup db adminUserId groupId, findGroupMember db groupId adminUserId with
        | some _, some aDoc =>
          if aDoc.isAdmin then
            let db1 : DB :=
              { db with
                joinRequests := db.joinRequests.map (fun r =>
                  if r.id == reqId && r.groupId == groupId then
                    { r with
                      status := ReqStatus.approved, adminUserId := some adminUserId,
                      processedAt := some db.now,
                      reason := some (reason.getD "Approved by admin") }
                  else r) }
            match addUserToGroup db1 req.userId groupId (some false) with
            | (.ok _, db2) => (.ok (), db2)
            | (.error e, db2) => (.error e, db2)
          else (.error .notAdmin, db)
        | _, _ => (.error .notMember, db)

/-- denyJoinRequest: same preconditions as approve, then marks the
request denied with the given reason. -/
def denyJoinRequest (db : DB) (groupId reqId adminUserId : Nat) (reason : String) :
    Except Err Unit × DB :=
  match findGroup db groupId with
  | none => (.error .groupNotFound, db)
  | some _ =>
    match findJoinRequest db groupId reqId with
    | none => (.error .requestNotFound, db)
    | some req =>
      if req.status ≠ ReqStatus.pending then (.error .requestNotPending, db)
      else
        match findUserGroup db adminUserId groupId, findGroupMember db groupId adminUserId with
        | some _, some aDoc =>
          if aDoc.isAdmin then
            (.ok (),
             { db with
               joinRequests := db.joinRequests.map (fun r =>
                 if r.id == reqId && r.groupId == groupId then
                   { r with
                     status := ReqStatus.denied, adminUserId := some adminUserId,
                     processedAt := some db.now, reason := some reason }
                 else r) })
          else (.error .notAdmin, db)
        | _, _ => (.error .notMember, db)

/-- One engine call with its arguments. -/
inductive Op where
  | newUser
  | newGroup (name : String)
  | join (userId groupId : Nat) (isAdmin : Option Bool)
  | purchase (groupId userId bucketCount unitsPerBucket : Nat)
  | consume (groupId userId units : Nat)
  | adjust (groupId userId : Nat) (amount : Int) (adminUserId : Nat)
  | contribute (groupId userId : Nat) (amount : Int) (comment : Option String)
  | request (groupId userId : Nat) (message : Option String)
  | approve (groupId reqId adminUserId : Nat) (reason : Option String)
  | deny (groupId reqId adminUserId : Nat) (reason : String)

/-- The database after one call, whether it succeeded or failed. -/
def applyOp (db : DB) : Op → DB
  | .newUser => (createUser db).2
  | .newGroup name => (createGroup db name).2
  | .join u g a => (addUserToGroup db u g a).2
  | .purchase g u n k => (purchaseBuckets db g u n k).2
  | .consume g u w => (recordConsumption db g u w).2
  | .adjust g u a adm => (updateUserBalance db g u a adm).2
  | .contribute g u a c => (createKittyTransaction db g u a c).2
  | .request g u m => (createJoinRequest db g u m).2
  | .approve g r adm re => (approveJoinRequest db g r adm re).2
  | .deny g r adm re => (denyJoinRequest db g r adm re).2

/-- One call followed by a clock tick. -/
def stepDB (db : DB) (op : Op) : DB :=
  let db1 := applyOp db op
  { db1 with now := db1.now + 1 }

/-- The states reachable from the empty database by engine calls,
successful or failed. -/
inductive Reachable : DB → Prop where
  | init : Reachable DB.empty
  | step (op : Op) {db : DB} : Reachable db → Reachable (stepDB db op)

/-- Existence of the user root document users/u, the check the older
validator performed and validateUserNotInGroup no longer does. -/
def userExists (db : DB) (userId : Nat) : Bool :=
  db.users.contains userId

/-- Units consumed from bucket i in a consumption collection. -/
def consumedForL (cs : List Consumption) (bucketId : Nat) : Nat :=
  ((cs.filter (fun c => c.bucketId == bucketId)).map (fun c => c.units)).sum

/-- Units consumed from bucket i over its lifetime: the sum of the units
of all consumption records whose bucketId is i. -/
def consumedFor (db : DB) (bucketId : Nat) : Nat :=
  consumedForL db.consumptions bucketId

/-- The buckets of member (groupId, userId) in a bucket collection, any
status. -/
def bucketsOfL (bs : List Bucket) (groupId userId : Nat) : List Bucket :=
  bs.filter (fun b => b.groupId == groupId && b.userId == userId)

/-- The buckets of member (groupId, userId), any status. -/
def bucketsOf (db : DB) (groupId userId : Nat) : List Bucket :=
  bucketsOfL db.buckets groupId userId

/-- Sum of remainingUnits over the member's buckets in a collection. -/
def sumRemainingL (bs : List Bucket) (groupId userId : Nat) : Nat :=
  ((bucketsOfL bs groupId userId).map (fun b => b.remainingUnits)).sum

/-- Sum of remainingUnits over the member's buckets. -/
def sumRemaining (db : DB) (groupId userId : Nat) : Nat :=
  sumRemainingL db.buckets groupId userId

/-- Sum of unitsInBucket over the member's buckets in a collection. -/
def sumUnitsL (bs : List Bucket) (groupId userId : Nat) : Nat :=
  ((bucketsOfL bs groupId userId).map (fun b => b.unitsInBucket)).sum

/-- Sum of unitsInBucket over the member's buckets. -/
def sumUnits (db : DB) (groupId userId : Nat) : Nat :=
  sumUnitsL db.buckets groupId userId

/-- Sum of units over the member's consumption records in a collection. -/
def sumConsumedL (cs : List Consumption) (groupId userId : Nat) : Nat :=
  ((cs.filter (fun c => c.groupId == groupId && c.userId == userId)).map
    (fun c => c.units)).sum

/-- Sum of units over the member's consumption records. -/
def sumConsumed (db : DB) (groupId userId : Nat) : Nat :=
  sumConsumedL db.consumptions groupId userId

/-- Modelled from the read/write pair of createKittyTransaction: the
kittyBalance is read (groupDoc.data().kittyBalance), the sum is computed
in the client, and the sum is written back with update.  One thread of a
contribute call is its amount, the balance value it has read (none until
its read step ran) and whether its write step ran. -/
structure ContribThread where
  amount : Int
  readVal : Option Int
  wrote : Bool
deriving DecidableEq, Repr

/-- Shared state of two concurrent contribute calls on one group: the
group's kittyBalance and the two call threads. -/
structure ContribState where
  kitty : Int
  t1 : ContribThread
  t2 : ContribThread
deriving DecidableEq, Repr

/-- A scheduler step: run the read or the write of one of the threads. -/
inductive ContribStep where
  | read1
  | write1
  | read2
  | write2
deriving DecidableEq, Repr

/-- Initial state of two concurrent contribute calls of amounts a and b
against kittyBalance k. -/
def ContribState.start (k a b : Int) : ContribState :=
  { kitty := k,
    t1 := { amount := a, readVal := none, wrote := false },
    t2 := { amount := b, readVal := none, wrote := false } }

/-- Effect of one scheduler step: a read loads the current kittyBalance
into the thread, a write stores readValue + amount, exactly the
read-then-write arithmetic of createKittyTransaction.  A step of a
thread that already ran that phase is a no-op. -/
def contribStep (s : ContribState) : ContribStep → ContribState
  | .read1 =>
    if s.t1.readVal.isNone then { s with t1 := { s.t1 with readVal := some s.kitty } } else s
  | .write1 =>
    match s.t1.readVal, s.t1.wrote with
    | some v, false => { s with kitty := v + s.t1.amount, t1 := { s.t1 with wrote := true } }
    | _, _ => s
  | .read2 =>
    if s.t2.readVal.isNone then { s with t2 := { s.t2 with readVal := some s.kitty } } else s
  | .write2 =>
    match s.t2.readVal, s.t2.wrote with
    | some v, false => { s with kitty := v + s.t2.amount, t2 := { s.t2 with wrote := true } }
    | _, _ => s

/-- Run a schedule of steps. -/
def runContrib (s : ContribState) (steps : List ContribStep) : ContribState :=
  steps.foldl contribStep s

/-- A schedule is complete when both threads have read and written. -/
def ContribState.complete (s : ContribState) : Bool :=
  s.t1.readVal.isSome && s.t1.wrote && s.t2.readVal.isSome && s.t2.wrote

/-- The key predicate of a mirror collection. -/
def mkey (a b : Nat) : Nat × Nat × MemberDoc → Bool :=
  fun e => e.1 == a && e.2.1 == b

/-- A bucket that selectNextActive may pick when rotating away from the
excluded bucket: owned by the member, active, not the excluded one, with
units left. -/
def rotationCandidate (groupId userId excludeBucketId : Nat) (b : Bucket) : Prop :=
  b.groupId = groupId ∧ b.userId = userId ∧ b.status = BucketStatus.active ∧
    b.id ≠ excludeBucketId ∧ b.remainingUnits ≠ 0

/-- The cross-document invariants maintained by the engine, proved to
hold in every reachable state. -/
structure Inv (db : DB) : Prop where
  bucketIdBound : ∀ b ∈ db.buckets, b.id < db.nextId
  bucketIdNodup : (db.buckets.map Bucket.id).Nodup
  remLe : ∀ b ∈ db.buckets, b.remainingUnits ≤ b.unitsInBucket
  perBucket : ∀ b ∈ db.buckets, consumedFor db b.id = b.unitsInBucket - b.remainingUnits
  consRef : ∀ c ∈ db.consumptions, ∃ b ∈ db.buckets,
    b.id = c.bucketId ∧ b.groupId = c.groupId ∧ b.userId = c.userId
  activeOwned : ∀ u g d, findUserGroup db u g = some d → ∀ i, d.activeBucketId = some i →
    ∃ b ∈ db.buckets, b.id = i ∧ b.groupId = g ∧ b.userId = u
  oneAdmin : ∀ g, membersOf db g ≠ [] → adminCount db g = 1
  balUG : ∀ e ∈ db.userGroups, e.2.2.balance ≤ 0
  balGM : ∀ e ∈ db.groupMembers, e.2.2.balance ≤ 0
  pendOne : ∀ g u, (pendingRequestsFor db g u).length ≤ 1
  agg : ∀ g u, sumRemaining db g u + sumConsumed db g u = sumUnits db g u

/-- Scenario states used by witnesses and counterexamples; ids allocated
in call order: user 0, group 1, buckets 2 and 3, and in the request
branch user 2 and request 3. -/
def dbA1 : DB := stepDB DB.empty Op.newUser

def dbA2 : DB := stepDB dbA1 (Op.newGroup "g")

def dbA3 : DB := stepDB dbA2 (Op.join 0 1 none)

def dbA4 : DB := stepDB dbA3 (Op.purchase 1 0 2 5)

def dbA5 : DB := stepDB dbA4 (Op.consume 1 0 5)

def dbB1 : DB := stepDB dbA3 (Op.adjust 1 0 (-20) 0)

def dbJ1 : DB := stepDB dbA3 Op.newUser

def dbJ2 : DB := stepDB dbJ1 (Op.request 1 2 none)

def dbJ3 : DB := stepDB dbJ2 (Op.approve 1 3 0 none)

/-- The request branch where user 2 joins directly while the request is
still pending. -/
def dbK3 : DB := stepDB dbJ2 (Op.join 2 1 none)

/-- A half-written membership: the user-side mirror exists, the
group-side mirror is missing. -/
def dbH0 : DB :=
  { DB.empty with
    users := [7],
    groups := [{ id := 1, name := "g", kittyBalance := 0, createdAt := 0 }],
    userGroups := [(7, 1, { balance := 0, isAdmin := false, activeBucketId := none,
                            joinedAt := 0 })] }

end KittyFB

namespace KittyFB

theorem findMirror_eq_find? (l : List (Nat × Nat × MemberDoc)) (a b : Nat) :
    findMirror l a b = (l.find? (mkey a b)).map (fun e => e.2.2) := rfl

theorem modMirror_eq_map (l : List (Nat × Nat × MemberDoc)) (a b : Nat)
    (f : MemberDoc → MemberDoc) :
    modMirror l a b f = l.map (fun e => if mkey a b e then (e.1, e.2.1, f e.2.2) else e) := rfl

theorem mkey_iff (a b : Nat) (e : Nat × Nat × MemberDoc) :
    mkey a b e = true ↔ e.1 = a ∧ e.2.1 = b := by
  simp [mkey]

theorem findMirror_def (l : List (Nat × Nat × MemberDoc)) (x y : Nat) :
    findMirror l x y = (l.find? (mkey x y)).map (fun e => e.2.2) := rfl

theorem findMirror_nil (x y : Nat) : findMirror [] x y = none := rfl

theorem findMirror_cons (e : Nat × Nat × MemberDoc) (t : List (Nat × Nat × MemberDoc))
    (x y : Nat) :
    findMirror (e :: t) x y = if mkey x y e then some e.2.2 else findMirror t x y := by
  by_cases h : mkey x y e = true
  · rw [findMirror_def, List.find?_cons_of_pos _ h, if_pos h]
    rfl
  · rw [findMirror_def, List.find?_cons_of_neg _ h, if_neg h, findMirror_def]

theorem modMirror_nil (a b : Nat) (f : MemberDoc → MemberDoc) :
    modMirror [] a b f = [] := rfl

theorem modMirror_cons (e : Nat × Nat × MemberDoc) (t : List (Nat × Nat × MemberDoc))
    (a b : Nat) (f : MemberDoc → MemberDoc) :
    modMirror (e :: t) a b f =
      (if mkey a b e then (e.1, e.2.1, f e.2.2) else e) :: modMirror t a b f := rfl

theorem findMirror_modMirror_self (l : List (Nat × Nat × MemberDoc)) (a b : Nat)
    (f : MemberDoc → MemberDoc) :
    findMirror (modMirror l a b f) a b = (findMirror l a b).map f := by
  induction l with
  | nil => rfl
  | cons e t ih =>
    by_cases h : mkey a b e = true
    · have h2 : mkey a b (e.1, e.2.1, f e.2.2) = true := by
        rw [mkey_iff] at h ⊢
        exact ⟨h.1, h.2⟩
      rw [modMirror_cons, if_pos h, findMirror_cons, if_pos h2, findMirror_cons, if_pos h]
      rfl
    · rw [modMirror_cons, if_neg h, findMirror_cons, if_neg h, findMirror_cons, if_neg h]
      exact ih

theorem findMirror_modMirror_ne (l : List (Nat × Nat × MemberDoc)) (a b x y : Nat)
    (f : MemberDoc → MemberDoc) (h : ¬(x = a ∧ y = b)) :
    findMirror (modMirror l a b f) x y = findMirror l x y := by
  induction l with
  | nil => rfl
  | cons e t ih =>
    by_cases hk : mkey a b e = true
    · have hne : ¬mkey x y (e.1, e.2.1, f e.2.2) = true := by
        rw [mkey_iff] at hk
        rw [mkey_iff]
        intro hc
        exact h ⟨hc.1.symm.trans hk.1, hc.2.symm.trans hk.2⟩
      have hne2 : ¬mkey x y e = true := by
        rw [mkey_iff] at hk
        rw [mkey_iff]
        intro hc
        exact h ⟨hc.1.symm.trans hk.1, hc.2.symm.trans hk.2⟩
      rw [modMirror_cons, if_pos hk, findMirror_cons, if_neg hne, findMirror_cons, if_neg hne2]
      exact ih
    · rw [modMirror_cons, if_neg hk, findMirror_cons, findMirror_cons]
      by_cases hx : mkey x y e = true
      · rw [if_pos hx, if_pos hx]
      · rw [if_neg hx, if_neg hx]
        exact ih

theorem putMirror_eq (l : List (Nat × Nat × MemberDoc)) (a b : Nat) (d : MemberDoc) :
    putMirror l a b d =
      if l.any (mkey a b) then modMirror l a b (fun _ => d) else l ++ [(a, b, d)] := rfl

theorem any_mkey_eq_isSome (l : List (Nat × Nat × MemberDoc)) (a b : Nat) :
    l.any (mkey a b) = (findMirror l a b).isSome := by
  induction l with
  | nil => rfl
  | cons e t ih =>
    rw [List.any_cons, findMirror_cons]
    by_cases h : mkey a b e = true
    · rw [if_pos h, h]
      rfl
    · rw [Bool.not_eq_true] at h
      rw [h, if_neg (by simp [h]), Bool.false_or]
      exact ih

theorem findMirror_append_of_none (l l2 : List (Nat × Nat × MemberDoc)) (a b : Nat)
    (h : findMirror l a b = none) :
    findMirror (l ++ l2) a b = findMirror l2 a b := by
  induction l with
  | nil => rfl
  | cons e t ih =>
    rw [findMirror_cons] at h
    rw [List.cons_append, findMirror_cons]
    by_cases hk : mkey a b e = true
    · rw [if_pos hk] at h
      exact absurd h (by simp)
    · rw [if_neg hk] at h
      rw [if_neg hk]
      exact ih h

theorem findMirror_append_of_some (l l2 : List (Nat × Nat × MemberDoc)) (a b : Nat)
    (d : MemberDoc) (h : findMirror l a b = some d) :
    findMirror (l ++ l2) a b = some d := by
  induction l with
  | nil => exact absurd h (by simp [findMirror_nil])
  | cons e t ih =>
    rw [findMirror_cons] at h
    rw [List.cons_append, findMirror_cons]
    by_cases hk : mkey a b e = true
    · rw [if_pos hk] at h
      rw [if_pos hk]
      exact h
    · rw [if_neg hk] at h
      rw [if_neg hk]
      exact ih h

theorem findMirror_singleton (a b x y : Nat) (d : MemberDoc) :
    findMirror [(a, b, d)] x y = if x = a ∧ y = b then some d else none := by
  rw [findMirror_cons, findMirror_nil]
  by_cases h : x = a ∧ y = b
  · rw [if_pos h, if_pos (by rw [mkey_iff]; exact ⟨h.1.symm, h.2.symm⟩)]
  · rw [if_neg h, if_neg (by rw [mkey_iff]; rintro ⟨h1, h2⟩; exact h ⟨h1.symm, h2.symm⟩)]

theorem findMirror_putMirror_self (l : List (Nat × Nat × MemberDoc)) (a b : Nat)
    (d : MemberDoc) :
    findMirror (putMirror l a b d) a b = some d := by
  rw [putMirror_eq]
  by_cases h : l.any (mkey a b) = true
  · rw [if_pos h, findMirror_modMirror_self]
    rw [any_mkey_eq_isSome] at h
    cases hf : findMirror l a b with
    | none => rw [hf] at h; exact absurd h (by simp)
    | some x => rfl
  · rw [if_neg h]
    rw [any_mkey_eq_isSome] at h
    have hn : findMirror l a b = none := by
      cases hf : findMirror l a b with
      | none => rfl
      | some x => rw [hf] at h; exact absurd rfl h
    rw [findMirror_append_of_none _ _ _ _ hn, findMirror_singleton, if_pos ⟨rfl, rfl⟩]

theorem findMirror_putMirror_ne (l : List (Nat × Nat × MemberDoc)) (a b x y : Nat)
    (d : MemberDoc) (h : ¬(x = a ∧ y = b)) :
    findMirror (putMirror l a b d) x y = findMirror l x y := by
  rw [putMirror_eq]
  by_cases hany : l.any (mkey a b) = true
  · rw [if_pos hany, findMirror_modMirror_ne _ _ _ _ _ _ h]
  · rw [if_neg hany]
    cases hf : findMirror l x y with
    | none => rw [findMirror_append_of_none _ _ _ _ hf, findMirror_singleton, if_neg h]
    | some e => rw [findMirror_append_of_some _ _ _ _ _ hf]

theorem membersOfL_nil (g : Nat) : membersOfL [] g = [] := rfl

theorem membersOfL_cons (e : Nat × Nat × MemberDoc) (t : List (Nat × Nat × MemberDoc))
    (g : Nat) :
    membersOfL (e :: t) g =
      if e.1 = g then (e.2.1, e.2.2) :: membersOfL t g else membersOfL t g := by
  by_cases h : e.1 = g
  · simp [membersOfL, List.filterMap_cons, h]
  · simp [membersOfL, List.filterMap_cons, h]

theorem membersOfL_append (l l2 : List (Nat × Nat × MemberDoc)) (g : Nat) :
    membersOfL (l ++ l2) g = membersOfL l g ++ membersOfL l2 g := by
  simp [membersOfL, List.filterMap_append]

theorem membersOfL_singleton (a b : Nat) (d : MemberDoc) (g : Nat) :
    membersOfL [(a, b, d)] g = if a = g then [(b, d)] else [] := by
  rw [membersOfL_cons, membersOfL_nil]

theorem membersOfL_modMirror_ne (l : List (Nat × Nat × MemberDoc)) (a b g : Nat)
    (f : MemberDoc → MemberDoc) (h : g ≠ a) :
    membersOfL (modMirror l a b f) g = membersOfL l g := by
  induction l with
  | nil => rfl
  | cons e t ih =>
    rw [modMirror_cons]
    by_cases hk : mkey a b e = true
    · rw [if_pos hk, membersOfL_cons, membersOfL_cons]
      rw [mkey_iff] at hk
      have hne : ¬e.1 = g := by rw [hk.1]; exact fun hc => h hc.symm
      rw [if_neg hne]
      have hne2 : ¬(e.1, e.2.1, f e.2.2).1 = g := hne
      rw [if_neg hne2]
      exact ih
    · rw [if_neg hk, membersOfL_cons, membersOfL_cons]
      by_cases hg : e.1 = g
      · rw [if_pos hg, if_pos hg, ih]
      · rw [if_neg hg, if_neg hg, ih]

theorem membersOfL_modMirror_eq (l : List (Nat × Nat × MemberDoc)) (g b : Nat)
    (f : MemberDoc → MemberDoc) :
    membersOfL (modMirror l g b f) g =
      (membersOfL l g).map (fun m => if m.1 = b then (m.1, f m.2) else m) := by
  induction l with
  | nil => rfl
  | cons e t ih =>
    by_cases hk : mkey g b e = true
    · have hk' := (mkey_iff g b e).mp hk
      rw [modMirror_cons, if_pos hk, membersOfL_cons, membersOfL_cons,
          if_pos (show (e.1, e.2.1, f e.2.2).1 = g from hk'.1), if_pos hk'.1,
          List.map_cons,
          if_pos (show ((e.2.1, e.2.2) : Nat × MemberDoc).1 = b from hk'.2)]
      exact congrArg _ ih
    · rw [modMirror_cons, if_neg hk, membersOfL_cons, membersOfL_cons]
      by_cases hg : e.1 = g
      · have hb : ¬e.2.1 = b := fun hc => hk ((mkey_iff g b e).mpr ⟨hg, hc⟩)
        rw [if_pos hg, if_pos hg, List.map_cons,
            if_neg (show ¬((e.2.1, e.2.2) : Nat × MemberDoc).1 = b from hb)]
        exact congrArg _ ih
      · rw [if_neg hg, if_neg hg]
        exact ih

theorem length_filter_map_eq {α : Type} (x : List α) (h : α → α) (p : α → Bool)
    (hp : ∀ m, p (h m) = p m) :
    ((x.map h).filter p).length = (x.filter p).length := by
  induction x with
  | nil => rfl
  | cons e t ih =>
    rw [List.map_cons, List.filter_cons, List.filter_cons, hp e]
    by_cases hc : p e = true
    · rw [if_pos hc, if_pos hc, List.length_cons, List.length_cons, ih]
    · rw [if_neg hc, if_neg hc, ih]

theorem membersOfL_modMirror_length (l : List (Nat × Nat × MemberDoc)) (a b g : Nat)
    (f : MemberDoc → MemberDoc) :
    (membersOfL (modMirror l a b f) g).length = (membersOfL l g).length := by
  by_cases h : g = a
  · subst h
    rw [membersOfL_modMirror_eq, List.length_map]
  · rw [membersOfL_modMirror_ne _ _ _ _ _ h]

theorem adminCountL_modMirror (l : List (Nat × Nat × MemberDoc)) (a b g : Nat)
    (f : MemberDoc → MemberDoc) (hf : ∀ d, (f d).isAdmin = d.isAdmin) :
    adminCountL (modMirror l a b f) g = adminCountL l g := by
  by_cases h : g = a
  · subst h
    rw [adminCountL, membersOfL_modMirror_eq, adminCountL]
    exact length_filter_map_eq _ _ _ (by
      intro m
      by_cases hm : m.1 = b
      · rw [if_pos hm]
        exact hf m.2
      · rw [if_neg hm])
  · rw [adminCountL, membersOfL_modMirror_ne _ _ _ _ _ h, adminCountL]

theorem adminCountL_append (l l2 : List (Nat × Nat × MemberDoc)) (g : Nat) :
    adminCountL (l ++ l2) g = adminCountL l g + adminCountL l2 g := by
  rw [adminCountL, membersOfL_append, List.filter_append, List.length_append,
      adminCountL, adminCountL]

theorem adminCountL_singleton (a b : Nat) (d : MemberDoc) (g : Nat) :
    adminCountL [(a, b, d)] g = if a = g ∧ d.isAdmin then 1 else 0 := by
  rw [adminCountL, membersOfL_singleton]
  by_cases h : a = g
  · rw [if_pos h]
    by_cases hd : d.isAdmin = true
    · rw [if_pos ⟨h, hd⟩]
      simp [hd]
    · rw [if_neg (by rintro ⟨h1, h2⟩; exact hd h2)]
      simp [hd]
  · rw [if_neg h, if_neg (by rintro ⟨h1, h2⟩; exact h h1)]
    rfl

theorem pendingForL_append (rs rs2 : List JoinRequest) (g u : Nat) :
    pendingForL (rs ++ rs2) g u = pendingForL rs g u ++ pendingForL rs2 g u := by
  simp [pendingForL, List.filter_append]

theorem pendingForL_map_length_le (rs : List JoinRequest) (m : JoinRequest → JoinRequest)
    (g u : Nat) (hm : ∀ r, m r = r ∨ (m r).status ≠ ReqStatus.pending) :
    (pendingForL (rs.map m) g u).length ≤ (pendingForL rs g u).length := by
  induction rs with
  | nil => exact Nat.le_refl _
  | cons r t ih =>
    rw [List.map_cons]
    unfold pendingForL at ih ⊢
    rw [List.filter_cons, List.filter_cons]
    rcases hm r with h | h
    · rw [h]
      by_cases hc : (r.groupId == g && r.userId == u && r.status == ReqStatus.pending) = true
      · rw [if_pos hc, if_pos hc, List.length_cons, List.length_cons]
        exact Nat.succ_le_succ ih
      · rw [if_neg hc, if_neg hc]
        exact ih
    · have hc : ((m r).groupId == g && (m r).userId == u &&
          (m r).status == ReqStatus.pending) = false := by
        rw [Bool.and_eq_false_iff]
        right
        rw [beq_eq_false_iff_ne]
        exact h
      rw [if_neg (by rw [hc]; exact Bool.false_ne_true)]
      by_cases hr : (r.groupId == g && r.userId == u && r.status == ReqStatus.pending) = true
      · rw [if_pos hr, List.length_cons]
        exact Nat.le_succ_of_le ih
      · rw [if_neg hr]
        exact ih

theorem consumedForL_append (cs cs2 : List Consumption) (i : Nat) :
    consumedForL (cs ++ cs2) i = consumedForL cs i + consumedForL cs2 i := by
  simp [consumedForL, List.filter_append]

theorem consumedForL_singleton (c : Consumption) (i : Nat) :
    consumedForL [c] i = if c.bucketId = i then c.units else 0 := by
  by_cases h : c.bucketId = i
  · simp [consumedForL, List.filter_cons, h]
  · simp [consumedForL, List.filter_cons, h]

theorem bucketsOfL_append (bs bs2 : List Bucket) (g u : Nat) :
    bucketsOfL (bs ++ bs2) g u = bucketsOfL bs g u ++ bucketsOfL bs2 g u := by
  simp [bucketsOfL, List.filter_append]

theorem sumRemainingL_append (bs bs2 : List Bucket) (g u : Nat) :
    sumRemainingL (bs ++ bs2) g u = sumRemainingL bs g u + sumRemainingL bs2 g u := by
  simp [sumRemainingL, bucketsOfL_append]

theorem sumUnitsL_append (bs bs2 : List Bucket) (g u : Nat) :
    sumUnitsL (bs ++ bs2) g u = sumUnitsL bs g u + sumUnitsL bs2 g u := by
  simp [sumUnitsL, bucketsOfL_append]

theorem sumConsumedL_append (cs cs2 : List Consumption) (g u : Nat) :
    sumConsumedL (cs ++ cs2) g u = sumConsumedL cs g u + sumConsumedL cs2 g u := by
  simp [sumConsumedL, List.filter_append]

theorem sumConsumedL_singleton (c : Consumption) (g u : Nat) :
    sumConsumedL [c] g u = if c.groupId = g ∧ c.userId = u then c.units else 0 := by
  by_cases h : c.groupId = g ∧ c.userId = u
  · simp [sumConsumedL, List.filter_cons, h.1, h.2]
  · rcases Decidable.not_and_iff_or_not.mp h with hx | hx
    · simp [sumConsumedL, List.filter_cons, hx, h]
    · simp [sumConsumedL, List.filter_cons, hx, h]

theorem mem_decomp_of_nodup_id (bs : List Bucket) (hnd : (bs.map Bucket.id).Nodup)
    (bk : Bucket) (hmem : bk ∈ bs) :
    ∃ l1 l2, bs = l1 ++ bk :: l2 ∧ (∀ x ∈ l1, x.id ≠ bk.id) ∧ (∀ x ∈ l2, x.id ≠ bk.id) := by
  obtain ⟨l1, l2, rfl⟩ := List.append_of_mem hmem
  refine ⟨l1, l2, rfl, ?_, ?_⟩
  all_goals
    rw [List.map_append, List.map_cons] at hnd
    have hmid := (List.nodup_middle).mp (by simpa using hnd)
    have hnotin := (List.nodup_cons.mp hmid).1
    rw [List.mem_append] at hnotin
    intro x hx hc
  · exact hnotin (Or.inl (by rw [← hc]; exact List.mem_map_of_mem Bucket.id hx))
  · exact hnotin (Or.inr (by rw [← hc]; exact List.mem_map_of_mem Bucket.id hx))

theorem map_id_of_fix {α : Type} (l : List α) (h : α → α) (hp : ∀ x ∈ l, h x = x) :
    l.map h = l := by
  induction l with
  | nil => rfl
  | cons e t ih =>
    rw [List.map_cons, hp e (List.mem_cons_self e t),
        ih (fun x hx => hp x (List.mem_cons_of_mem e hx))]

theorem modBucket_decomp (l1 l2 : List Bucket) (bk : Bucket) (g i : Nat)
    (f : Bucket → Bucket) (h1 : ∀ x ∈ l1, x.id ≠ i) (h2 : ∀ x ∈ l2, x.id ≠ i)
    (hid : bk.id = i) (hg : bk.groupId = g) :
    modBucket (l1 ++ bk :: l2) g i f = l1 ++ f bk :: l2 := by
  unfold modBucket
  rw [List.map_append, List.map_cons]
  have e1 : l1.map (fun b => if b.id == i && b.groupId == g then f b else b) = l1 :=
    map_id_of_fix _ _ (fun x hx => if_neg (by simp [h1 x hx]))
  have e2 : l2.map (fun b => if b.id == i && b.groupId == g then f b else b) = l2 :=
    map_id_of_fix _ _ (fun x hx => if_neg (by simp [h2 x hx]))
  rw [e1, e2, if_pos (by simp [hid, hg])]

theorem findBucketIn_eq_some {db : DB} {g i : Nat} {bk : Bucket}
    (h : findBucketIn db g i = some bk) :
    bk ∈ db.buckets ∧ bk.id = i ∧ bk.groupId = g := by
  have hm := List.mem_of_find?_eq_some h
  have hp := List.find?_some h
  simp only [Bool.and_eq_true, beq_iff_eq] at hp
  exact ⟨hm, hp.1, hp.2⟩

theorem mem_activeBucketsOf {db : DB} {g u : Nat} {b : Bucket} :
    b ∈ activeBucketsOf db g u ↔
      b ∈ db.buckets ∧ b.groupId = g ∧ b.userId = u ∧ b.status = BucketStatus.active := by
  simp [activeBucketsOf, List.mem_filter, and_assoc]

theorem rotation_pred_iff (x : Nat) (b : Bucket) :
    (b.id != x && b.remainingUnits != 0) = true ↔ b.id ≠ x ∧ b.remainingUnits ≠ 0 := by
  simp

theorem nextActiveBucketId_none {db : DB} {g u x : Nat}
    (h : nextActiveBucketId db g u x = none) :
    ∀ b ∈ db.buckets, ¬rotationCandidate g u x b := by
  intro b hb hc
  simp only [nextActiveBucketId, Option.map_eq_none', List.head?_eq_none_iff] at h
  have hmem : b ∈ (activeBucketsOf db g u).insertionSort bucketOrder := by
    rw [List.mem_insertionSort]
    exact mem_activeBucketsOf.mpr ⟨hb, hc.1, hc.2.1, hc.2.2.1⟩
  have hfil : b ∈ ((activeBucketsOf db g u).insertionSort bucketOrder).filter
      (fun b => b.id != x && b.remainingUnits != 0) := by
    rw [List.mem_filter]
    exact ⟨hmem, (rotation_pred_iff x b).mpr ⟨hc.2.2.2.1, hc.2.2.2.2⟩⟩
  rw [h] at hfil
  exact absurd hfil (List.not_mem_nil b)

theorem nextActiveBucketId_some {db : DB} {g u x i : Nat}
    (h : nextActiveBucketId db g u x = some i) :
    ∃ b ∈ db.buckets, b.id = i ∧ rotationCandidate g u x b ∧
      ∀ bb ∈ db.buckets, rotationCandidate g u x bb → b.purchasedAt ≤ bb.purchasedAt := by
  simp only [nextActiveBucketId, Option.map_eq_some'] at h
  obtain ⟨bhd, hhd, hid⟩ := h
  cases hfe : ((activeBucketsOf db g u).insertionSort bucketOrder).filter
      (fun b => b.id != x && b.remainingUnits != 0) with
  | nil => rw [hfe] at hhd; exact absurd hhd (by simp)
  | cons y rest =>
    rw [hfe] at hhd
    simp only [List.head?_cons, Option.some_inj] at hhd
    rw [← hhd] at hid
    have hy : y ∈ (activeBucketsOf db g u).insertionSort bucketOrder ∧
        (y.id != x && y.remainingUnits != 0) = true := by
      have : y ∈ ((activeBucketsOf db g u).insertionSort bucketOrder).filter
          (fun b => b.id != x && b.remainingUnits != 0) := by
        rw [hfe]; exact List.mem_cons_self _ _
      exact List.mem_filter.mp this
    have hmem := (List.mem_insertionSort bucketOrder).mp hy.1
    have hprops := mem_activeBucketsOf.mp hmem
    have hpred := (rotation_pred_iff x y).mp hy.2
    refine ⟨y, hprops.1, hid, ⟨hprops.2.1, hprops.2.2.1, hprops.2.2.2, hpred.1, hpred.2⟩, ?_⟩
    intro bb hbb hcand
    have hsorted : List.Sorted bucketOrder
        ((activeBucketsOf db g u).insertionSort bucketOrder) :=
      List.sorted_insertionSort bucketOrder _
    have hpw : List.Pairwise bucketOrder
        (((activeBucketsOf db g u).insertionSort bucketOrder).filter
          (fun b => b.id != x && b.remainingUnits != 0)) :=
      List.Pairwise.sublist (List.filter_sublist _) hsorted
    have hbbf : bb ∈ ((activeBucketsOf db g u).insertionSort bucketOrder).filter
        (fun b => b.id != x && b.remainingUnits != 0) := by
      rw [List.mem_filter, List.mem_insertionSort]
      exact ⟨mem_activeBucketsOf.mpr ⟨hbb, hcand.1, hcand.2.1, hcand.2.2.1⟩,
        (rotation_pred_iff x bb).mpr ⟨hcand.2.2.2.1, hcand.2.2.2.2⟩⟩
    rw [hfe] at hbbf hpw
    rcases List.mem_cons.mp hbbf with hb | hb
    · rw [hb]
    · have := (List.pairwise_cons.mp hpw).1 bb hb
      unfold bucketOrder at this
      omega

/-- C10: a half-written membership, where exactly one of the two mirror
documents exists, is treated as a non-member: purchase, consume,
adjustBalance and contribute all fail NotMember and leave the database
unchanged. -/
theorem c10_half_written_membership_rejected (db : DB) (g u : Nat)
    (h : ((findUserGroup db u g).isSome ∧ findGroupMember db g u = none) ∨
         (findUserGroup db u g = none ∧ (findGroupMember db g u).isSome)) :
    (∀ n k, purchaseBuckets db g u n k = (.error .notMember, db)) ∧
    (∀ w, recordConsumption db g u w = (.error .notMember, db)) ∧
    (∀ a adm, updateUserBalance db g u a adm = (.error .notMember, db)) ∧
    (∀ a c, createKittyTransaction db g u a c = (.error .notMember, db)) := by
  rcases h with ⟨h1, h2⟩ | ⟨h1, h2⟩
  · obtain ⟨d, hd⟩ := Option.isSome_iff_exists.mp h1
    refine ⟨fun n k => ?_, fun w => ?_, fun a adm => ?_, fun a c => ?_⟩ <;>
      simp only [purchaseBuckets, recordConsumption, updateUserBalance,
        createKittyTransaction, hd, h2]
  · obtain ⟨d, hd⟩ := Option.isSome_iff_exists.mp h2
    refine ⟨fun n k => ?_, fun w => ?_, fun a adm => ?_, fun a c => ?_⟩ <;>
      simp only [purchaseBuckets, recordConsumption, updateUserBalance,
        createKittyTransaction, hd, h1]

/-- Witness for C10 at the concrete half-written state dbH0 (user-side
mirror present, group-side missing). -/
theorem c10_half_written_membership_rejected_witness :
    purchaseBuckets dbH0 1 7 1 5 = (.error .notMember, dbH0) ∧
    recordConsumption dbH0 1 7 1 = (.error .notMember, dbH0) ∧
    updateUserBalance dbH0 1 7 (-5) 7 = (.error .notMember, dbH0) ∧
    createKittyTransaction dbH0 1 7 5 none = (.error .notMember, dbH0) := by
  have h := c10_half_written_membership_rejected dbH0 1 7 (by decide)
  exact ⟨h.1 1 5, h.2.1 1, h.2.2.1 (-5) 7, h.2.2.2 5 none⟩

theorem balance_le_modMirror (l : List (Nat × Nat × MemberDoc)) (a b : Nat)
    (f : MemberDoc → MemberDoc) (hl : ∀ e ∈ l, e.2.2.balance ≤ 0)
    (hf : ∀ d, d.balance ≤ 0 → (f d).balance ≤ 0) :
    ∀ e ∈ modMirror l a b f, e.2.2.balance ≤ 0 := by
  intro e' he'
  unfold modMirror at he'
  obtain ⟨e, he, rfl⟩ := List.mem_map.mp he'
  by_cases hk : (e.1 == a && e.2.1 == b) = true
  · rw [if_pos hk]
    exact hf e.2.2 (hl e he)
  · rw [if_neg hk]
    exact hl e he

/-- C4: adjustBalance requires the target membership, an admin caller
(else NotAdmin) and a nonzero amount (else ZeroAmount); it computes
newBalance = currentBalance + amount, rejects with
PositiveBalanceRejected reporting -currentBalance as the maximum
allowed payment whenever newBalance > 0, otherwise writes newBalance to
both mirrors; and balances stay ≤ 0 after the call, success or
failure. -/
theorem c4_adjustBalance (db : DB) (g u adm : Nat) (amount : Int) (du dg da : MemberDoc)
    (hu : findUserGroup db u g = some du) (hg : findGroupMember db g u = some dg)
    (hau : (findUserGroup db adm g).isSome) (hga : findGroupMember db g adm = some da) :
    (da.isAdmin = false → updateUserBalance db g u amount adm = (.error .notAdmin, db)) ∧
    (da.isAdmin = true → amount = 0 →
      updateUserBalance db g u amount adm = (.error .amountZero, db)) ∧
    (da.isAdmin = true → amount ≠ 0 → du.balance ≤ 0 → du.balance + amount > 0 →
      updateUserBalance db g u amount adm =
        (.error (.positiveBalanceRejected (-du.balance)), db)) ∧
    (da.isAdmin = true → amount ≠ 0 → du.balance + amount ≤ 0 →
      (updateUserBalance db g u amount adm).1 = .ok () ∧
      findUserGroup (updateUserBalance db g u amount adm).2 u g =
        some { du with balance := du.balance + amount } ∧
      findGroupMember (updateUserBalance db g u amount adm).2 g u =
        some { dg with balance := du.balance + amount }) ∧
    ((∀ e ∈ db.userGroups, e.2.2.balance ≤ 0) → (∀ e ∈ db.groupMembers, e.2.2.balance ≤ 0) →
      (∀ e ∈ (updateUserBalance db g u amount adm).2.userGroups, e.2.2.balance ≤ 0) ∧
      (∀ e ∈ (updateUserBalance db g u amount adm).2.groupMembers, e.2.2.balance ≤ 0)) := by
  obtain ⟨dau, hdau⟩ := Option.isSome_iff_exists.mp hau
  refine ⟨?_, ?_, ?_, ?_, ?_⟩
  · intro h
    simp [updateUserBalance, hu, hg, hdau, hga, h]
  · intro h h0
    simp [updateUserBalance, hu, hg, hdau, hga, h, h0]
  · intro h h0 hneg hpos
    simp only [updateUserBalance, hu, hg, hdau, hga, h, if_true, if_neg h0]
    rw [if_pos hpos, abs_of_nonpos hneg]
  · intro h h0 hle
    have hnotpos : ¬du.balance + amount > 0 := by omega
    simp only [updateUserBalance, hu, hg, hdau, hga, h, if_true, if_neg h0, if_neg hnotpos]
    refine ⟨by simp, ?_, ?_⟩
    · simp only [findUserGroup]
      rw [findMirror_modMirror_self, show findMirror db.userGroups u g = some du from hu]
      rfl
    · simp only [findGroupMember]
      rw [findMirror_modMirror_self, show findMirror db.groupMembers g u = some dg from hg]
      rfl
  · intro hbu hbg
    by_cases h : da.isAdmin = true
    · by_cases h0 : amount = 0
      · simp only [updateUserBalance, hu, hg, hdau, hga, h, if_true, if_pos h0]
        exact ⟨hbu, hbg⟩
      · by_cases hpos : du.balance + amount > 0
        · simp only [updateUserBalance, hu, hg, hdau, hga, h, if_true, if_neg h0,
            if_pos hpos]
          exact ⟨hbu, hbg⟩
        · simp only [updateUserBalance, hu, hg, hdau, hga, h, if_true, if_neg h0,
            if_neg hpos]
          constructor
          · exact balance_le_modMirror _ _ _ _ hbu (fun d _ => by
              show du.balance + amount ≤ 0
              omega)
          · exact balance_le_modMirror _ _ _ _ hbg (fun d _ => by
              show du.balance + amount ≤ 0
              omega)
    · rw [Bool.not_eq_true] at h
      simp only [updateUserBalance, hu, hg, hdau, hga, h, Bool.false_eq_true, if_false]
      exact ⟨hbu, hbg⟩

/-- Witness for C4 at the concrete state dbB1 (member 0 of group 1 with
balance -20, admin 0): a +25 adjustment is rejected reporting 20 as the
maximum payment, a +20 adjustment is accepted. -/
theorem c4_adjustBalance_witness :
    updateUserBalance dbB1 1 0 25 0 = (.error (.positiveBalanceRejected 20), dbB1) ∧
    (updateUserBalance dbB1 1 0 20 0).1 = .ok () := by
  have h25 := c4_adjustBalance dbB1 1 0 0 25
    { balance := -20, isAdmin := true, activeBucketId := none, joinedAt := 2 }
    { balance := -20, isAdmin := true, activeBucketId := none, joinedAt := 2 }
    { balance := -20, isAdmin := true, activeBucketId := none, joinedAt := 2 }
    (by decide) (by decide) (by decide) (by decide)
  have h20 := c4_adjustBalance dbB1 1 0 0 20
    { balance := -20, isAdmin := true, activeBucketId := none, joinedAt := 2 }
    { balance := -20, isAdmin := true, activeBucketId := none, joinedAt := 2 }
    { balance := -20, isAdmin := true, activeBucketId := none, joinedAt := 2 }
    (by decide) (by decide) (by decide) (by decide)
  constructor
  · rw [h25.2.2.1 rfl (by decide) (by decide) (by decide)]
    rfl
  · rw [(h20.2.2.2.1 rfl (by decide) (by decide)).1]

/-- C8: purchase creates exactly bucketCount buckets, each with
remainingUnits = unitsInBucket = unitsPerBucket and status active, all
sharing one purchaseBatchId, returns their ids in creation order, and
sets activeBucketId (in both mirrors) to the first created bucket
exactly when it was null, leaving it unchanged otherwise. -/
theorem c8_purchaseBuckets (db : DB) (g u n k : Nat) (du dg : MemberDoc)
    (hu : findUserGroup db u g = some du) (hg : findGroupMember db g u = some dg)
    (hn : 1 ≤ n) :
    (purchaseBuckets db g u n k).1 = .ok ((List.range n).map (fun i => db.nextId + i)) ∧
    (purchaseBuckets db g u n k).2.buckets =
      db.buckets ++ (List.range n).map (fun i =>
        ({ id := db.nextId + i, groupId := g, userId := u, unitsInBucket := k,
           remainingUnits := k, status := BucketStatus.active, purchasedAt := db.now,
           purchaseBatchId := (db.now, u) } : Bucket)) ∧
    (du.activeBucketId = none →
      findUserGroup (purchaseBuckets db g u n k).2 u g =
        some { du with activeBucketId := some db.nextId } ∧
      findGroupMember (purchaseBuckets db g u n k).2 g u =
        some { dg with activeBucketId := some db.nextId }) ∧
    (∀ b0, du.activeBucketId = some b0 →
      findUserGroup (purchaseBuckets db g u n k).2 u g = some du ∧
      findGroupMember (purchaseBuckets db g u n k).2 g u =
        some { dg with activeBucketId := some b0 }) := by
  obtain ⟨m, rfl⟩ : ∃ m, n = m + 1 := ⟨n - 1, by omega⟩
  refine ⟨?_, ?_, ?_, ?_⟩
  · simp only [purchaseBuckets, hu, hg]
  · simp only [purchaseBuckets, hu, hg, List.map_map]
    rfl
  · intro hnone
    have hhead : (((List.range (m + 1)).map (fun i => db.nextId + i)).head?) =
        some db.nextId := by
      rw [List.range_succ_eq_map]
      rfl
    constructor
    · simp only [purchaseBuckets, hu, hg, hnone, hhead]
      simp only [findUserGroup]
      rw [findMirror_modMirror_self, show findMirror db.userGroups u g = some du from hu]
      rfl
    · simp only [purchaseBuckets, hu, hg, hnone, hhead]
      simp only [findGroupMember]
      rw [findMirror_modMirror_self, show findMirror db.groupMembers g u = some dg from hg]
      rfl
  · intro b0 hsome
    constructor
    · simp only [purchaseBuckets, hu, hg, hsome]
      simp only [findUserGroup]
      rw [findMirror_modMirror_self, show findMirror db.userGroups u g = some du from hu]
      show some { du with activeBucketId := some b0 } = some du
      rw [← hsome]
    · simp only [purchaseBuckets, hu, hg, hsome]
      simp only [findGroupMember]
      rw [findMirror_modMirror_self, show findMirror db.groupMembers g u = some dg from hg]
      rfl

/-- Witness for C8 at dbA3 (fresh admin member 0 of group 1,
no active bucket): purchasing 2 buckets of 5 units creates buckets 2
and 3 and sets activeBucketId to 2. -/
theorem c8_purchaseBuckets_witness :
    (purchaseBuckets dbA3 1 0 2 5).1 = .ok [2, 3] ∧
    (findUserGroup (purchaseBuckets dbA3 1 0 2 5).2 0 1).map
      (fun d => d.activeBucketId) = some (some 2) := by
  have h := c8_purchaseBuckets dbA3 1 0 2 5
    { balance := 0, isAdmin := true, activeBucketId := none, joinedAt := 2 }
    { balance := 0, isAdmin := true, activeBucketId := none, joinedAt := 2 }
    (by decide) (by decide) (by decide)
  constructor
  · rw [h.1]
    rfl
  · rw [(h.2.2.1 rfl).1]
    rfl

theorem findBucket_modBucket_self (l : List Bucket) (g i : Nat) (f : Bucket → Bucket)
    (hf : ∀ b, (f b).id = b.id ∧ (f b).groupId = b.groupId) :
    (modBucket l g i f).find? (fun b => b.id == i && b.groupId == g) =
      (l.find? (fun b => b.id == i && b.groupId == g)).map f := by
  induction l with
  | nil => rfl
  | cons b t ih =>
    unfold modBucket at ih ⊢
    rw [List.map_cons]
    by_cases hk : (b.id == i && b.groupId == g) = true
    · rw [if_pos hk]
      have hk' : ((f b).id == i && (f b).groupId == g) = true := by
        simp only [Bool.and_eq_true, beq_iff_eq] at hk ⊢
        exact ⟨(hf b).1.trans hk.1, (hf b).2.trans hk.2⟩
      rw [List.find?_cons, List.find?_cons, hk', hk]
      rfl
    · have hkf : (b.id == i && b.groupId == g) = false := by simpa using hk
      rw [if_neg hk, List.find?_cons, List.find?_cons, hkf]
      exact ih

/-- C1: with a member whose activeBucketId points at an existing bucket,
consume of w units with w ≤ remainingUnits appends exactly one
consumption record and decrements the bucket; exactly when the result is
zero the bucket is completed and both mirrors receive the
selectNextActive result, which is the oldest (minimal purchasedAt)
other active bucket of the member with units left, or null when no such
bucket exists; when the result is nonzero activeBucketId is untouched.
Consume fails NoActiveBucket when the pointer is null and
InsufficientUnits when remainingUnits < w. -/
theorem c1_consume (db : DB) (g u w : Nat) (du dg : MemberDoc)
    (hu : findUserGroup db u g = some du) (hg : findGroupMember db g u = some dg) :
    (du.activeBucketId = none →
      recordConsumption db g u w = (.error .noActiveBucket, db)) ∧
    (∀ bId bk, du.activeBucketId = some bId → findBucketIn db g bId = some bk →
      (bk.remainingUnits < w →
        recordConsumption db g u w = (.error (.insufficientUnits bk.remainingUnits w), db)) ∧
      (w ≤ bk.remainingUnits → bk.remainingUnits - w ≠ 0 →
        (recordConsumption db g u w).1 = .ok () ∧
        (recordConsumption db g u w).2.consumptions =
          db.consumptions ++ [{ id := db.nextId, groupId := g, userId := u, units := w,
                                bucketId := bId, consumedAt := db.now }] ∧
        findBucketIn (recordConsumption db g u w).2 g bId =
          some { bk with remainingUnits := bk.remainingUnits - w } ∧
        findUserGroup (recordConsumption db g u w).2 u g = some du ∧
        findGroupMember (recordConsumption db g u w).2 g u = some dg) ∧
      (w ≤ bk.remainingUnits → bk.remainingUnits - w = 0 →
        (recordConsumption db g u w).1 = .ok () ∧
        (recordConsumption db g u w).2.consumptions =
          db.consumptions ++ [{ id := db.nextId, groupId := g, userId := u, units := w,
                                bucketId := bId, consumedAt := db.now }] ∧
        findBucketIn (recordConsumption db g u w).2 g bId =
          some { bk with remainingUnits := 0, status := BucketStatus.completed } ∧
        findUserGroup (recordConsumption db g u w).2 u g =
          some { du with activeBucketId := nextActiveBucketId db g u bId } ∧
        findGroupMember (recordConsumption db g u w).2 g u =
          some { dg with activeBucketId := nextActiveBucketId db g u bId } ∧
        (nextActiveBucketId db g u bId = none →
          ∀ b ∈ db.buckets, ¬rotationCandidate g u bId b) ∧
        (∀ i, nextActiveBucketId db g u bId = some i →
          ∃ b ∈ db.buckets, b.id = i ∧ rotationCandidate g u bId b ∧
            ∀ bb ∈ db.buckets, rotationCandidate g u bId bb →
              b.purchasedAt ≤ bb.purchasedAt))) := by
  constructor
  · intro hnone
    simp only [recordConsumption, hu, hg, hnone]
  · intro bId bk hact hbk
    refine ⟨?_, ?_, ?_⟩
    · intro hlt
      simp only [recordConsumption, hu, hg, hact, hbk, if_pos hlt]
    · intro hle hne
      have hnlt : ¬bk.remainingUnits < w := by omega
      simp only [recordConsumption, hu, hg, hact, hbk, if_neg hnlt, if_neg hne]
      refine ⟨by trivial, by trivial, ?_, ?_, ?_⟩
      · simp only [findBucketIn]
        rw [findBucket_modBucket_self db.buckets g bId
              (fun b => { b with remainingUnits := bk.remainingUnits - w })
              (fun b => ⟨rfl, rfl⟩),
            show db.buckets.find? (fun b => b.id == bId && b.groupId == g) = some bk from hbk]
        rfl
      · exact hu
      · exact hg
    · intro hle hz
      have hnlt : ¬bk.remainingUnits < w := by omega
      simp only [recordConsumption, hu, hg, hact, hbk, if_neg hnlt, if_pos hz]
      refine ⟨by trivial, by trivial, ?_, ?_, ?_, ?_, ?_⟩
      · simp only [findBucketIn]
        rw [findBucket_modBucket_self db.buckets g bId
              (fun b => { b with remainingUnits := 0, status := BucketStatus.completed })
              (fun b => ⟨rfl, rfl⟩),
            show db.buckets.find? (fun b => b.id == bId && b.groupId == g) = some bk from hbk]
        rfl
      · simp only [findUserGroup]
        rw [findMirror_modMirror_self, show findMirror db.userGroups u g = some du from hu]
        rfl
      · simp only [findGroupMember]
        rw [findMirror_modMirror_self, show findMirror db.groupMembers g u = some dg from hg]
        rfl
      · intro hn
        exact nextActiveBucketId_none hn
      · intro i hi
        exact nextActiveBucketId_some hi

/-- Witness for C1 at dbA4 (member 0 of group 1, buckets 2 and 3 of 5
units, active bucket 2): consuming 5 units empties bucket 2, completes
it and rotates the active pointer to bucket 3. -/
theorem c1_consume_witness :
    (recordConsumption dbA4 1 0 5).1 = .ok () ∧
    (findUserGroup (recordConsumption dbA4 1 0 5).2 0 1).map (fun d => d.activeBucketId) =
      some (some 3) ∧
    findBucketIn (recordConsumption dbA4 1 0 5).2 1 2 =
      some { id := 2, groupId := 1, userId := 0, unitsInBucket := 5, remainingUnits := 0,
             status := BucketStatus.completed, purchasedAt := 3,
             purchaseBatchId := (3, 0) } := by
  have h := c1_consume dbA4 1 0 5
    { balance := 0, isAdmin := true, activeBucketId := some 2, joinedAt := 2 }
    { balance := 0, isAdmin := true, activeBucketId := some 2, joinedAt := 2 }
    (by decide) (by decide)
  have h2 := (h.2 2
    { id := 2, groupId := 1, userId := 0, unitsInBucket := 5, remainingUnits := 5,
      status := BucketStatus.active, purchasedAt := 3, purchaseBatchId := (3, 0) }
    (by decide) (by decide)).2.2 (by decide) (by decide)
  refine ⟨h2.1, ?_, ?_⟩
  · rw [h2.2.2.2.1]
    decide
  · rw [h2.2.2.1]

theorem addUserToGroup_ok_or_unchanged (db : DB) (u g : Nat) (a : Option Bool) :
    (∃ v, (addUserToGroup db u g a).1 = .ok v) ∨ (addUserToGroup db u g a).2 = db := by
  unfold addUserToGroup
  repeat' split
  all_goals first | exact Or.inr rfl | exact Or.inl ⟨_, rfl⟩

theorem purchaseBuckets_ok_or_unchanged (db : DB) (g u n k : Nat) :
    (∃ v, (purchaseBuckets db g u n k).1 = .ok v) ∨ (purchaseBuckets db g u n k).2 = db := by
  unfold purchaseBuckets
  repeat' split
  all_goals first | exact Or.inr rfl | exact Or.inl ⟨_, rfl⟩

theorem recordConsumption_ok_or_unchanged (db : DB) (g u w : Nat) :
    (∃ v, (recordConsumption db g u w).1 = .ok v) ∨ (recordConsumption db g u w).2 = db := by
  simp only [recordConsumption]
  repeat' split
  all_goals first | exact Or.inr rfl | exact Or.inl ⟨_, rfl⟩

theorem updateUserBalance_ok_or_unchanged (db : DB) (g u : Nat) (a : Int) (adm : Nat) :
    (∃ v, (updateUserBalance db g u a adm).1 = .ok v) ∨
      (updateUserBalance db g u a adm).2 = db := by
  simp only [updateUserBalance]
  repeat' split
  all_goals first | exact Or.inr rfl | exact Or.inl ⟨_, rfl⟩

theorem createKittyTransaction_ok_or_unchanged (db : DB) (g u : Nat) (a : Int)
    (c : Option String) :
    (∃ v, (createKittyTransaction db g u a c).1 = .ok v) ∨
      (createKittyTransaction db g u a c).2 = db := by
  unfold createKittyTransaction
  repeat' split
  all_goals first | exact Or.inr rfl | exact Or.inl ⟨_, rfl⟩

theorem createJoinRequest_ok_or_unchanged (db : DB) (g u : Nat) (m : Option String) :
    (∃ v, (createJoinRequest db g u m).1 = .ok v) ∨ (createJoinRequest db g u m).2 = db := by
  unfold createJoinRequest
  repeat' split
  all_goals first | exact Or.inr rfl | exact Or.inl ⟨_, rfl⟩

theorem denyJoinRequest_ok_or_unchanged (db : DB) (g r adm : Nat) (re : String) :
    (∃ v, (denyJoinRequest db g r adm re).1 = .ok v) ∨
      (denyJoinRequest db g r adm re).2 = db := by
  unfold denyJoinRequest
  repeat' split
  all_goals first | exact Or.inr rfl | exact Or.inl ⟨_, rfl⟩

/-- C2 (amended): for join, purchase, consume, adjustBalance, contribute,
request and deny, any failure leaves the database exactly as it was;
approve leaves it unchanged on its precondition failures (group or
request missing, request not pending, approver not a member or not
admin), but when the request was approvable and the embedded join then
fails, the request has already been marked approved (see the
counterexample). -/
theorem c2_failure_leaves_state_unchanged (db : DB) :
    (∀ u g a e, (addUserToGroup db u g a).1 = .error e → (addUserToGroup db u g a).2 = db) ∧
    (∀ g u n k e, (purchaseBuckets db g u n k).1 = .error e →
      (purchaseBuckets db g u n k).2 = db) ∧
    (∀ g u w e, (recordConsumption db g u w).1 = .error e →
      (recordConsumption db g u w).2 = db) ∧
    (∀ g u a adm e, (updateUserBalance db g u a adm).1 = .error e →
      (updateUserBalance db g u a adm).2 = db) ∧
    (∀ g u a c e, (createKittyTransaction db g u a c).1 = .error e →
      (createKittyTransaction db g u a c).2 = db) ∧
    (∀ g u m e, (createJoinRequest db g u m).1 = .error e →
      (createJoinRequest db g u m).2 = db) ∧
    (∀ g r adm re e, (denyJoinRequest db g r adm re).1 = .error e →
      (denyJoinRequest db g r adm re).2 = db) ∧
    (∀ g r adm re,
      (findGroup db g = none →
        approveJoinRequest db g r adm re = (.error .groupNotFound, db)) ∧
      (∀ grp, findGroup db g = some grp → findJoinRequest db g r = none →
        approveJoinRequest db g r adm re = (.error .requestNotFound, db)) ∧
      (∀ grp req, findGroup db g = some grp → findJoinRequest db g r = some req →
        req.status ≠ ReqStatus.pending →
        approveJoinRequest db g r adm re = (.error .requestNotPending, db)) ∧
      (∀ grp req, findGroup db g = some grp → findJoinRequest db g r = some req →
        req.status = ReqStatus.pending →
        (findUserGroup db adm g = none ∨ findGroupMember db g adm = none) →
        approveJoinRequest db g r adm re = (.error .notMember, db)) ∧
      (∀ grp req da, findGroup db g = some grp → findJoinRequest db g r = some req →
        req.status = ReqStatus.pending → (findUserGroup db adm g).isSome →
        findGroupMember db g adm = some da → da.isAdmin = false →
        approveJoinRequest db g r adm re = (.error .notAdmin, db))) := by
  refine ⟨?_, ?_, ?_, ?_, ?_, ?_, ?_, ?_⟩
  · intro u g a e h
    rcases addUserToGroup_ok_or_unchanged db u g a with ⟨v, hv⟩ | hdb
    · rw [h] at hv; exact absurd hv (by simp)
    · exact hdb
  · intro g u n k e h
    rcases purchaseBuckets_ok_or_unchanged db g u n k with ⟨v, hv⟩ | hdb
    · rw [h] at hv; exact absurd hv (by simp)
    · exact hdb
  · intro g u w e h
    rcases recordConsumption_ok_or_unchanged db g u w with ⟨v, hv⟩ | hdb
    · rw [h] at hv; exact absurd hv (by simp)
    · exact hdb
  · intro g u a adm e h
    rcases updateUserBalance_ok_or_unchanged db g u a adm with ⟨v, hv⟩ | hdb
    · rw [h] at hv; exact absurd hv (by simp)
    · exact hdb
  · intro g u a c e h
    rcases createKittyTransaction_ok_or_unchanged db g u a c with ⟨v, hv⟩ | hdb
    · rw [h] at hv; exact absurd hv (by simp)
    · exact hdb
  · intro g u m e h
    rcases createJoinRequest_ok_or_unchanged db g u m with ⟨v, hv⟩ | hdb
    · rw [h] at hv; exact absurd hv (by simp)
    · exact hdb
  · intro g r adm re e h
    rcases denyJoinRequest_ok_or_unchanged db g r adm re with ⟨v, hv⟩ | hdb
    · rw [h] at hv; exact absurd hv (by simp)
    · exact hdb
  · intro g r adm re
    refine ⟨?_, ?_, ?_, ?_, ?_⟩
    · intro hng
      simp only [approveJoinRequest, hng]
    · intro grp hgrp hnr
      simp only [approveJoinRequest, hgrp, hnr]
    · intro grp req hgrp hr hstat
      simp only [approveJoinRequest, hgrp, hr, if_pos hstat]
    · intro grp req hgrp hr hstat hmiss
      have hnp : ¬req.status ≠ ReqStatus.pending := by simp [hstat]
      rcases hmiss with hm | hm
      · simp only [approveJoinRequest, hgrp, hr, hm]
        rw [if_neg hnp]
      · simp only [approveJoinRequest, hgrp, hr, hm]
        rw [if_neg hnp]
        cases findUserGroup db adm g <;> rfl
    · intro grp req da hgrp hr hstat hadm hda hfalse
      have hnp : ¬req.status ≠ ReqStatus.pending := by simp [hstat]
      obtain ⟨dau, hdau⟩ := Option.isSome_iff_exists.mp hadm
      simp only [approveJoinRequest, hgrp, hr, hdau, hda]
      rw [if_neg hnp, hfalse]
      rfl

/-- Counterexample for C2 as stated: in dbK3 user 2 has a pending join
request (id 3) for group 1 and has meanwhile joined directly; approve
then fails with the AlreadyMember/MembershipExists failure of the
embedded join, yet the touched JoinRequest is no longer pending: it has
been marked approved, so the failed operation did not leave every
touched entity unchanged. -/
theorem c2_counterexample :
    (findJoinRequest dbK3 1 3).map (fun r => r.status) = some ReqStatus.pending ∧
    (approveJoinRequest dbK3 1 3 0 none).1 = .error .alreadyMember ∧
    (findJoinRequest (approveJoinRequest dbK3 1 3 0 none).2 1 3).map (fun r => r.status) =
      some ReqStatus.approved ∧
    (approveJoinRequest dbK3 1 3 0 none).2 ≠ dbK3 := by
  refine ⟨rfl, rfl, rfl, by decide⟩

/-- Witness for the amended C2: in dbA4 the active bucket holds 5 units,
consume of 7 fails InsufficientUnits and the database is unchanged; in
dbJ2 approving a nonexistent request fails RequestNotFound
unchanged. -/
theorem c2_failure_leaves_state_unchanged_witness :
    (recordConsumption dbA4 1 0 7).2 = dbA4 ∧
    approveJoinRequest dbJ2 1 99 0 none = (.error .requestNotFound, dbJ2) := by
  have h := c2_failure_leaves_state_unchanged dbA4
  have h2 := c2_failure_leaves_state_unchanged dbJ2
  exact ⟨h.2.2.1 1 0 7 (.insufficientUnits 5 7) rfl,
    (h2.2.2.2.2.2.2.2 1 99 0 none).2.1
      { id := 1, name := "g", kittyBalance := 0, createdAt := 1 } (by decide) (by decide)⟩

/-- C5 (code bug, failing input): on the empty database, user 9 and
group 5 do not exist, yet join succeeds - validateUserNotInGroup checks
only the two mirror documents, never the User or Group roots, despite
its own docstring promising "User not found" / "Group not found" - and
both mirrors are created (forced admin, balance 0, null active bucket,
joinedAt now). -/
theorem c5_join_missing_user_succeeds :
    userExists DB.empty 9 = false ∧ findGroup DB.empty 5 = none ∧
    (addUserToGroup DB.empty 9 5 none).1 = .ok () ∧
    findUserGroup (addUserToGroup DB.empty 9 5 none).2 9 5 =
      some { balance := 0, isAdmin := true, activeBucketId := none, joinedAt := 0 } ∧
    findGroupMember (addUserToGroup DB.empty 9 5 none).2 5 9 =
      some { balance := 0, isAdmin := true, activeBucketId := none, joinedAt := 0 } :=
  ⟨rfl, rfl, rfl, rfl, rfl⟩

theorem find?_groups_set_kitty (l : List GroupRec) (g : Nat) (nb : Int) (grp : GroupRec)
    (h : l.find? (fun r => r.id == g) = some grp) :
    (l.map (fun r => if r.id == g then { r with kittyBalance := nb } else r)).find?
      (fun r => r.id == g) = some { grp with kittyBalance := nb } := by
  induction l with
  | nil => exact absurd h (by simp)
  | cons r t ih =>
    rw [List.map_cons]
    by_cases hk : (r.id == g) = true
    · rw [if_pos hk]
      rw [List.find?_cons, hk] at h
      simp only [Option.some.injEq] at h
      rw [← h]
      simp only [List.find?_cons, hk]
    · rw [if_neg hk]
      have hkf : (r.id == g) = false := by simpa using hk
      rw [List.find?_cons, hkf] at h
      rw [List.find?_cons, hkf]
      exact ih h

theorem contribute_effect (db : DB) (g u : Nat) (a : Int) (du dg : MemberDoc)
    (grp : GroupRec) (hu : findUserGroup db u g = some du)
    (hg : findGroupMember db g u = some dg) (hgrp : findGroup db g = some grp)
    (ha : 0 < a) (c : Option String) :
    findGroup (createKittyTransaction db g u a c).2 g =
      some { grp with kittyBalance := grp.kittyBalance + a } ∧
    (createKittyTransaction db g u a c).2.userGroups = db.userGroups ∧
    (createKittyTransaction db g u a c).2.groupMembers = db.groupMembers := by
  have hna : ¬a ≤ 0 := by omega
  simp only [createKittyTransaction, hu, hg, if_neg hna, hgrp]
  refine ⟨?_, by trivial, by trivial⟩
  simp only [findGroup]
  exact find?_groups_set_kitty _ _ _ _
    (show db.groups.find? (fun r => r.id == g) = some grp from hgrp)

/-- C6 (amended): createKittyTransaction updates kittyBalance by
read-then-write arithmetic (newKittyBalance = read value + amount), not
an atomic increment primitive; two sequential contribute calls of a and
b therefore grow kittyBalance by exactly a + b, but interleaving the
read and write phases of two concurrent calls can lose one increment
(both reads before either write leaves only the second amount). -/
theorem c6_contribute_read_then_write (db : DB) (g u1 u2 : Nat) (a b : Int)
    (d1u d1g d2u d2g : MemberDoc) (grp : GroupRec)
    (h1u : findUserGroup db u1 g = some d1u) (h1g : findGroupMember db g u1 = some d1g)
    (h2u : findUserGroup db u2 g = some d2u) (h2g : findGroupMember db g u2 = some d2g)
    (hgrp : findGroup db g = some grp) (ha : 0 < a) (hb : 0 < b) (c1 c2 : Option String) :
    findGroup (createKittyTransaction (createKittyTransaction db g u1 a c1).2 g u2 b c2).2 g =
      some { grp with kittyBalance := grp.kittyBalance + a + b } ∧
    (∀ k : Int,
      (runContrib (ContribState.start k a b)
        [ContribStep.read1, ContribStep.read2, ContribStep.write1,
         ContribStep.write2]).kitty = k + b ∧
      (runContrib (ContribState.start k a b)
        [ContribStep.read1, ContribStep.read2, ContribStep.write1,
         ContribStep.write2]).complete = true) := by
  constructor
  · have e1 := contribute_effect db g u1 a d1u d1g grp h1u h1g hgrp ha c1
    have h2u' : findUserGroup (createKittyTransaction db g u1 a c1).2 u2 g = some d2u := by
      show findMirror (createKittyTransaction db g u1 a c1).2.userGroups u2 g = some d2u
      rw [e1.2.1]
      exact h2u
    have h2g' : findGroupMember (createKittyTransaction db g u1 a c1).2 g u2 = some d2g := by
      show findMirror (createKittyTransaction db g u1 a c1).2.groupMembers g u2 = some d2g
      rw [e1.2.2]
      exact h2g
    exact (contribute_effect _ g u2 b d2u d2g _ h2u' h2g' e1.1 hb c2).1
  · intro k
    exact ⟨rfl, rfl⟩

/-- Counterexample for C6 as stated: the schedule read1, read2, write1,
write2 is a complete interleaving of two concurrent contribute calls of
5 and 7 on a kitty of 0, and it ends with kittyBalance 7, not 0 + 5 + 7:
the first increment is lost, which an atomic increment primitive would
make impossible. -/
theorem c6_lost_update_counterexample :
    (runContrib (ContribState.start 0 5 7)
      [ContribStep.read1, ContribStep.read2, ContribStep.write1,
       ContribStep.write2]).complete = true ∧
    (runContrib (ContribState.start 0 5 7)
      [ContribStep.read1, ContribStep.read2, ContribStep.write1,
       ContribStep.write2]).kitty = 7 ∧
    (7 : Int) ≠ 0 + 5 + 7 :=
  ⟨rfl, rfl, by decide⟩

/-- Witness for the amended C6 at dbA3: two sequential contributions of
5 and 7 by member 0 leave kittyBalance 12, and the lossy schedule on a
kitty of 100 ends at 107. -/
theorem c6_contribute_read_then_write_witness :
    findGroup (createKittyTransaction (createKittyTransaction dbA3 1 0 5 none).2 1 0 7 none).2
      1 = some { id := 1, name := "g", kittyBalance := 12, createdAt := 1 } ∧
    (runContrib (ContribState.start 100 5 7)
      [ContribStep.read1, ContribStep.read2, ContribStep.write1,
       ContribStep.write2]).kitty = 107 := by
  have h := c6_contribute_read_then_write dbA3 1 0 0 5 7
    { balance := 0, isAdmin := true, activeBucketId := none, joinedAt := 2 }
    { balance := 0, isAdmin := true, activeBucketId := none, joinedAt := 2 }
    { balance := 0, isAdmin := true, activeBucketId := none, joinedAt := 2 }
    { balance := 0, isAdmin := true, activeBucketId := none, joinedAt := 2 }
    { id := 1, name := "g", kittyBalance := 0, createdAt := 1 }
    (by decide) (by decide) (by decide) (by decide) (by decide) (by decide) (by decide)
    none none
  constructor
  · rw [h.1]
    rfl
  · rw [(h.2 100).1]
    decide

theorem consumedForL_eq_zero (cs : List Consumption) (i : Nat)
    (h : ∀ c ∈ cs, c.bucketId ≠ i) : consumedForL cs i = 0 := by
  induction cs with
  | nil => rfl
  | cons c t ih =>
    unfold consumedForL at ih ⊢
    rw [List.filter_cons, if_neg (by simp [h c (List.mem_cons_self c t)])]
    exact ih (fun x hx => h x (List.mem_cons_of_mem c hx))

theorem bucketsOfL_cons (b : Bucket) (t : List Bucket) (g u : Nat) :
    bucketsOfL (b :: t) g u =
      if b.groupId = g ∧ b.userId = u then b :: bucketsOfL t g u else bucketsOfL t g u := by
  by_cases h : b.groupId = g ∧ b.userId = u
  · rw [if_pos h]
    unfold bucketsOfL
    rw [List.filter_cons, if_pos (by simp [h.1, h.2])]
  · rw [if_neg h]
    unfold bucketsOfL
    rw [List.filter_cons, if_neg (by simp only [Bool.and_eq_true, beq_iff_eq]; exact h)]

theorem sumRemainingL_cons (b : Bucket) (t : List Bucket) (g u : Nat) :
    sumRemainingL (b :: t) g u =
      (if b.groupId = g ∧ b.userId = u then b.remainingUnits else 0) +
        sumRemainingL t g u := by
  unfold sumRemainingL
  rw [bucketsOfL_cons]
  by_cases h : b.groupId = g ∧ b.userId = u
  · rw [if_pos h, if_pos h, List.map_cons, List.sum_cons]
  · rw [if_neg h, if_neg h, Nat.zero_add]

theorem sumUnitsL_cons (b : Bucket) (t : List Bucket) (g u : Nat) :
    sumUnitsL (b :: t) g u =
      (if b.groupId = g ∧ b.userId = u then b.unitsInBucket else 0) + sumUnitsL t g u := by
  unfold sumUnitsL
  rw [bucketsOfL_cons]
  by_cases h : b.groupId = g ∧ b.userId = u
  · rw [if_pos h, if_pos h, List.map_cons, List.sum_cons]
  · rw [if_neg h, if_neg h, Nat.zero_add]

theorem pendingForL_singleton (r : JoinRequest) (g u : Nat) :
    pendingForL [r] g u =
      if r.groupId = g ∧ r.userId = u ∧ r.status = ReqStatus.pending then [r] else [] := by
  by_cases h : r.groupId = g ∧ r.userId = u ∧ r.status = ReqStatus.pending
  · rw [if_pos h]
    unfold pendingForL
    rw [List.filter_cons, if_pos (by simp [h.1, h.2.1, h.2.2])]
    rfl
  · rw [if_neg h]
    unfold pendingForL
    rw [List.filter_cons, if_neg (by
      simp only [Bool.and_eq_true, beq_iff_eq, and_assoc]
      exact h)]
    rfl

theorem modBucket_map_id (l : List Bucket) (g i : Nat) (f : Bucket → Bucket)
    (hf : ∀ b, (f b).id = b.id) :
    (modBucket l g i f).map Bucket.id = l.map Bucket.id := by
  unfold modBucket
  rw [List.map_map]
  apply List.map_congr_left
  intro b hb
  by_cases hk : (b.id == i && b.groupId == g) = true
  · simp only [Function.comp, if_pos hk]
    exact hf b
  · simp only [Function.comp, if_neg hk]

theorem mem_modBucket_fields (l : List Bucket) (g i : Nat) (f : Bucket → Bucket)
    (hf : ∀ b, (f b).id = b.id ∧ (f b).groupId = b.groupId ∧ (f b).userId = b.userId)
    (b : Bucket) (hb : b ∈ l) :
    ∃ b2 ∈ modBucket l g i f, b2.id = b.id ∧ b2.groupId = b.groupId ∧ b2.userId = b.userId := by
  unfold modBucket
  by_cases hk : (b.id == i && b.groupId == g) = true
  · refine ⟨f b, ?_, (hf b).1, (hf b).2.1, (hf b).2.2⟩
    have hm := List.mem_map_of_mem
      (fun b => if b.id == i && b.groupId == g then f b else b) hb
    simpa [hk] using hm
  · refine ⟨b, ?_, rfl, rfl, rfl⟩
    have := List.mem_map_of_mem
      (fun b => if b.id == i && b.groupId == g then f b else b) hb
    simpa [hk] using this

theorem purchase_new_map_id (ids : List Nat) (g u k t : Nat) :
    ((ids.map (fun i =>
      ({ id := i, groupId := g, userId := u, unitsInBucket := k, remainingUnits := k,
         status := BucketStatus.active, purchasedAt := t,
         purchaseBatchId := (t, u) } : Bucket))).map Bucket.id) = ids := by
  rw [List.map_map]
  exact map_id_of_fix ids _ (fun i _ => rfl)

theorem purchase_new_sumRemaining (ids : List Nat) (g u k t g2 u2 : Nat) :
    sumRemainingL (ids.map (fun i =>
      ({ id := i, groupId := g, userId := u, unitsInBucket := k, remainingUnits := k,
         status := BucketStatus.active, purchasedAt := t,
         purchaseBatchId := (t, u) } : Bucket))) g2 u2 =
      if g2 = g ∧ u2 = u then k * ids.length else 0 := by
  induction ids with
  | nil => by_cases h : g2 = g ∧ u2 = u <;> simp [h, sumRemainingL, bucketsOfL]
  | cons i t2 ih =>
    rw [List.map_cons, sumRemainingL_cons, ih]
    by_cases h : g2 = g ∧ u2 = u
    · rw [if_pos h, if_pos h, if_pos ⟨h.1.symm, h.2.symm⟩, List.length_cons]
      ring
    · rw [if_neg h, if_neg h,
        if_neg (fun hc => h ⟨hc.1.symm, hc.2.symm⟩), Nat.zero_add]

theorem purchase_new_sumUnits (ids : List Nat) (g u k t g2 u2 : Nat) :
    sumUnitsL (ids.map (fun i =>
      ({ id := i, groupId := g, userId := u, unitsInBucket := k, remainingUnits := k,
         status := BucketStatus.active, purchasedAt := t,
         purchaseBatchId := (t, u) } : Bucket))) g2 u2 =
      if g2 = g ∧ u2 = u then k * ids.length else 0 := by
  induction ids with
  | nil => by_cases h : g2 = g ∧ u2 = u <;> simp [h, sumUnitsL, bucketsOfL]
  | cons i t2 ih =>
    rw [List.map_cons, sumUnitsL_cons, ih]
    by_cases h : g2 = g ∧ u2 = u
    · rw [if_pos h, if_pos h, if_pos ⟨h.1.symm, h.2.symm⟩, List.length_cons]
      ring
    · rw [if_neg h, if_neg h,
        if_neg (fun hc => h ⟨hc.1.symm, hc.2.symm⟩), Nat.zero_add]

theorem range_offset_nodup (base n : Nat) : ((List.range n).map (fun i => base + i)).Nodup :=
  (List.nodup_range n).map (fun hx => by omega)

theorem range_offset_mem {base n x : Nat} (h : x ∈ (List.range n).map (fun i => base + i)) :
    base ≤ x ∧ x < base + n := by
  obtain ⟨i, hi, rfl⟩ := List.mem_map.mp h
  rw [List.mem_range] at hi
  omega

theorem inv_empty : Inv DB.empty := by
  refine ⟨?_, ?_, ?_, ?_, ?_, ?_, ?_, ?_, ?_, ?_, ?_⟩ <;>
    simp [DB.empty, consumedFor, consumedForL, membersOf, membersOfL, adminCount,
      adminCountL, findUserGroup, findMirror, pendingRequestsFor, pendingForL,
      sumRemaining, sumRemainingL, sumConsumed, sumConsumedL, sumUnits, sumUnitsL,
      bucketsOfL]

theorem inv_now (db : DB) (n : Nat) (h : Inv db) : Inv { db with now := n } :=
  ⟨h.bucketIdBound, h.bucketIdNodup, h.remLe, h.perBucket, h.consRef, h.activeOwned,
   h.oneAdmin, h.balUG, h.balGM, h.pendOne, h.agg⟩

theorem inv_bump (db : DB) (h : Inv db) (husers : List Nat) (hgroups : List GroupRec)
    (htx : List KittyTx) :
    Inv { db with users := husers, groups := hgroups, transactions := htx,
                  nextId := db.nextId + 1 } :=
  ⟨fun b hb => Nat.lt_succ_of_lt (h.bucketIdBound b hb), h.bucketIdNodup, h.remLe,
   h.perBucket, h.consRef, h.activeOwned, h.oneAdmin, h.balUG, h.balGM, h.pendOne, h.agg⟩

theorem inv_createUser (db : DB) (h : Inv db) : Inv (createUser db).2 :=
  inv_bump db h _ _ _

theorem inv_createGroup (db : DB) (name : String) (h : Inv db) :
    Inv (createGroup db name).2 :=
  inv_bump db h _ _ _

theorem inv_createKittyTransaction (db : DB) (g u : Nat) (a : Int) (c : Option String)
    (h : Inv db) : Inv (createKittyTransaction db g u a c).2 := by
  cases h1 : findUserGroup db u g with
  | none => simp only [createKittyTransaction, h1]; exact h
  | some du =>
  cases h2 : findGroupMember db g u with
  | none => simp only [createKittyTransaction, h1, h2]; exact h
  | some dg =>
  by_cases ha : a ≤ 0
  · simp only [createKittyTransaction, h1, h2, if_pos ha]
    exact h
  · cases h3 : findGroup db g with
    | none => simp only [createKittyTransaction, h1, h2, if_neg ha, h3]; exact h
    | some grp =>
      simp only [createKittyTransaction, h1, h2, if_neg ha, h3]
      exact inv_bump db h _ _ _

theorem ne_nil_of_modMirror_ne_nil {l : List (Nat × Nat × MemberDoc)} {a b g : Nat}
    {f : MemberDoc → MemberDoc} (h : membersOfL (modMirror l a b f) g ≠ []) :
    membersOfL l g ≠ [] := by
  intro hc
  apply h
  have hlen := membersOfL_modMirror_length l a b g f
  rw [hc] at hlen
  exact List.length_eq_zero.mp (by simpa using hlen)

theorem oneAdmin_modMirror (db : DB) (a b : Nat) (f : MemberDoc → MemberDoc)
    (hf : ∀ d, (f d).isAdmin = d.isAdmin)
    (h : ∀ g, membersOf db g ≠ [] → adminCount db g = 1) :
    ∀ g, membersOfL (modMirror db.groupMembers a b f) g ≠ [] →
      adminCountL (modMirror db.groupMembers a b f) g = 1 := by
  intro g hne
  rw [adminCountL_modMirror _ _ _ _ _ hf]
  exact h g (ne_nil_of_modMirror_ne_nil hne)

theorem activeOwned_modMirror_pointer_preserving (db : DB) (a b : Nat)
    (f : MemberDoc → MemberDoc) (hf : ∀ d, (f d).activeBucketId = d.activeBucketId)
    (h : ∀ u g d, findUserGroup db u g = some d → ∀ i, d.activeBucketId = some i →
      ∃ bk ∈ db.buckets, bk.id = i ∧ bk.groupId = g ∧ bk.userId = u) :
    ∀ u g d, findMirror (modMirror db.userGroups a b f) u g = some d →
      ∀ i, d.activeBucketId = some i →
        ∃ bk ∈ db.buckets, bk.id = i ∧ bk.groupId = g ∧ bk.userId = u := by
  intro u g d hd i hi
  by_cases hk : u = a ∧ g = b
  · obtain ⟨rfl, rfl⟩ := hk
    have hd2 : (findMirror db.userGroups u g).map f = some d :=
      (findMirror_modMirror_self db.userGroups u g f).symm.trans hd
    cases hfind : findMirror db.userGroups u g with
    | none => rw [hfind] at hd2; exact absurd hd2 (by simp)
    | some d0 =>
      rw [hfind] at hd2
      simp only [Option.map_some', Option.some.injEq] at hd2
      have hp : d0.activeBucketId = some i := by
        rw [← hf d0, hd2, hi]
      exact h u g d0 hfind i hp
  · have hd2 : findMirror db.userGroups u g = some d :=
      (findMirror_modMirror_ne db.userGroups a b u g f hk).symm.trans hd
    exact h u g d hd2 i hi

theorem inv_updateUserBalance (db : DB) (g u : Nat) (a : Int) (adm : Nat) (h : Inv db) :
    Inv (updateUserBalance db g u a adm).2 := by
  cases h1 : findUserGroup db u g with
  | none => simp only [updateUserBalance, h1]; exact h
  | some du =>
  cases h2 : findGroupMember db g u with
  | none => simp only [updateUserBalance, h1, h2]; exact h
  | some dg =>
  cases h3 : findUserGroup db adm g with
  | none => simp only [updateUserBalance, h1, h2, h3]; exact h
  | some dau =>
  cases h4 : findGroupMember db g adm with
  | none => simp only [updateUserBalance, h1, h2, h3, h4]; exact h
  | some da =>
  by_cases hadm : da.isAdmin = true
  case neg =>
    rw [Bool.not_eq_true] at hadm
    simp only [updateUserBalance, h1, h2, h3, h4, hadm]
    rw [if_neg (show ¬(false = true) from by simp)]
    exact h
  case pos =>
  by_cases h0 : a = 0
  · simp only [updateUserBalance, h1, h2, h3, h4, hadm, if_true, if_pos h0]
    exact h
  · by_cases hpos : du.balance + a > 0
    · simp only [updateUserBalance, h1, h2, h3, h4, hadm, if_true, if_neg h0, if_pos hpos]
      exact h
    · simp only [updateUserBalance, h1, h2, h3, h4, hadm, if_true, if_neg h0, if_neg hpos]
      refine ⟨h.bucketIdBound, h.bucketIdNodup, h.remLe, h.perBucket, h.consRef,
        ?_, ?_, ?_, ?_, h.pendOne, h.agg⟩
      · exact activeOwned_modMirror_pointer_preserving db u g
          (fun d => { d with balance := du.balance + a }) (fun d => rfl) h.activeOwned
      · exact oneAdmin_modMirror db g u
          (fun d => { d with balance := du.balance + a }) (fun d => rfl) h.oneAdmin
      · exact balance_le_modMirror db.userGroups u g
          (fun d => { d with balance := du.balance + a }) h.balUG (fun d _ => by
            show du.balance + a ≤ 0
            omega)
      · exact balance_le_modMirror db.groupMembers g u
          (fun d => { d with balance := du.balance + a }) h.balGM (fun d _ => by
            show du.balance + a ≤ 0
            omega)

theorem putMirror_of_none (l : List (Nat × Nat × MemberDoc)) (a b : Nat) (d : MemberDoc)
    (h : findMirror l a b = none) : putMirror l a b d = l ++ [(a, b, d)] := by
  have h2 : ¬(l.any (mkey a b) = true) := by
    rw [any_mkey_eq_isSome, h]
    simp
  rw [putMirror_eq, if_neg h2]

theorem inv_writeMembership (db : DB) (u g : Nat) (flag : Bool) (h : Inv db)
    (hug : findUserGroup db u g = none) (hgm : findGroupMember db g u = none)
    (hflag : (membersOf db g = [] ∧ flag = true) ∨ (membersOf db g ≠ [] ∧ flag = false)) :
    Inv (writeMembership db u g flag) := by
  have hput1 : putMirror db.userGroups u g
      { balance := 0, isAdmin := flag, activeBucketId := none, joinedAt := db.now } =
      db.userGroups ++ [(u, g,
        { balance := 0, isAdmin := flag, activeBucketId := none, joinedAt := db.now })] :=
    putMirror_of_none _ _ _ _ hug
  have hput2 : putMirror db.groupMembers g u
      { balance := 0, isAdmin := flag, activeBucketId := none, joinedAt := db.now } =
      db.groupMembers ++ [(g, u,
        { balance := 0, isAdmin := flag, activeBucketId := none, joinedAt := db.now })] :=
    putMirror_of_none _ _ _ _ hgm
  simp only [writeMembership, hput1, hput2]
  refine ⟨h.bucketIdBound, h.bucketIdNodup, h.remLe, h.perBucket, h.consRef,
    ?_, ?_, ?_, ?_, h.pendOne, h.agg⟩
  · intro u' g' d' hd' i hi
    by_cases hk : u' = u ∧ g' = g
    · obtain ⟨rfl, rfl⟩ := hk
      have hd2 : findMirror (db.userGroups ++ [(u', g',
          { balance := 0, isAdmin := flag, activeBucketId := none,
            joinedAt := db.now })]) u' g' = some
          { balance := 0, isAdmin := flag, activeBucketId := none, joinedAt := db.now } := by
        rw [findMirror_append_of_none _ _ _ _ hug, findMirror_singleton,
          if_pos ⟨rfl, rfl⟩]
      have hdd := hd2.symm.trans hd'
      rw [Option.some.injEq] at hdd
      rw [← hdd] at hi
      exact absurd hi (by simp)
    · have hne : findMirror (db.userGroups ++ [(u, g,
          { balance := 0, isAdmin := flag, activeBucketId := none,
            joinedAt := db.now })]) u' g' = findMirror db.userGroups u' g' := by
        cases hf : findMirror db.userGroups u' g' with
        | none => rw [findMirror_append_of_none _ _ _ _ hf, findMirror_singleton, if_neg hk]
        | some x => rw [findMirror_append_of_some _ _ _ _ _ hf]
      exact h.activeOwned u' g' d' (hne.symm.trans hd') i hi
  · intro g' hne
    show adminCountL _ g' = 1
    rw [adminCountL_append, adminCountL_singleton]
    by_cases hg : g = g'
    · subst hg
      rcases hflag with ⟨hempty, hflag⟩ | ⟨hnem, hflag⟩
      · have h0 : adminCountL db.groupMembers g = 0 := by
          show ((membersOfL db.groupMembers g).filter (fun m => m.2.isAdmin)).length = 0
          rw [show membersOfL db.groupMembers g = [] from hempty]
          rfl
        rw [h0, hflag, if_pos ⟨rfl, rfl⟩]
      · have h1 : adminCountL db.groupMembers g = 1 := h.oneAdmin g hnem
        rw [h1, hflag, if_neg (by rintro ⟨h1, h2⟩; exact Bool.false_ne_true h2)]
    · rw [if_neg (by rintro ⟨h1, h2⟩; exact hg h1), Nat.add_zero]
      apply h.oneAdmin g'
      intro hc
      apply hne
      show membersOfL _ g' = []
      rw [membersOfL_append, membersOfL_singleton, if_neg hg, List.append_nil]
      exact hc
  · intro e he
    rcases List.mem_append.mp he with hm | hm
    · exact h.balUG e hm
    · rcases List.mem_singleton.mp hm with rfl
      show (0 : Int) ≤ 0
      omega
  · intro e he
    rcases List.mem_append.mp he with hm | hm
    · exact h.balGM e hm
    · rcases List.mem_singleton.mp hm with rfl
      show (0 : Int) ≤ 0
      omega

theorem inv_addUserToGroup (db : DB) (u g : Nat) (a : Option Bool) (h : Inv db) :
    Inv (addUserToGroup db u g a).2 := by
  by_cases hmem : ((findUserGroup db u g).isSome || (findGroupMember db g u).isSome) = true
  · simp only [addUserToGroup, if_pos hmem]
    exact h
  · have hug : findUserGroup db u g = none := by
      cases hx : findUserGroup db u g with
      | none => rfl
      | some d => exfalso; apply hmem; rw [hx]; simp
    have hgm : findGroupMember db g u = none := by
      cases hx : findGroupMember db g u with
      | none => rfl
      | some d => exfalso; apply hmem; rw [hx]; simp
    by_cases hemp : ((membersOf db g).isEmpty) = true
    · simp only [addUserToGroup, if_neg hmem, if_pos hemp]
      exact inv_writeMembership db u g true h hug hgm
        (Or.inl ⟨List.isEmpty_iff.mp hemp, rfl⟩)
    · have hnem : membersOf db g ≠ [] := fun hc => hemp (List.isEmpty_iff.mpr hc)
      by_cases hreq : a = some true
      · have hcount : adminCount db g = 1 := h.oneAdmin g hnem
        have hpos : adminCount db g > 0 := by omega
        simp only [addUserToGroup, if_neg hmem, if_neg hemp, if_pos hreq, if_pos hpos]
        exact h
      · simp only [addUserToGroup, if_neg hmem, if_neg hemp, if_neg hreq]
        exact inv_writeMembership db u g false h hug hgm (Or.inr ⟨hnem, rfl⟩)

theorem inv_createJoinRequest (db : DB) (g u : Nat) (m : Option String) (h : Inv db) :
    Inv (createJoinRequest db g u m).2 := by
  cases h1 : findGroup db g with
  | none => simp only [createJoinRequest, h1]; exact h
  | some grp =>
  by_cases hmem : ((findUserGroup db u g).isSome || (findGroupMember db g u).isSome) = true
  · simp only [createJoinRequest, h1, if_pos hmem]
    exact h
  · by_cases hpen : ((pendingRequestsFor db g u).isEmpty) = true
    · simp only [createJoinRequest, h1, if_neg hmem, if_pos hpen]
      have hpnil : pendingForL db.joinRequests g u = [] := List.isEmpty_iff.mp hpen
      refine ⟨fun b hb => Nat.lt_succ_of_lt (h.bucketIdBound b hb), h.bucketIdNodup,
        h.remLe, h.perBucket, h.consRef, h.activeOwned, h.oneAdmin, h.balUG, h.balGM,
        ?_, h.agg⟩
      intro g' u'
      show (pendingForL _ g' u').length ≤ 1
      rw [pendingForL_append, pendingForL_singleton, List.length_append]
      by_cases hk : g = g' ∧ u = u'
      · obtain ⟨rfl, rfl⟩ := hk
        rw [show pendingForL db.joinRequests g u = [] from hpnil]
        rw [if_pos ⟨rfl, rfl, rfl⟩]
        simp
      · rw [if_neg (by
          rintro ⟨hk1, hk2, hk3⟩
          exact hk ⟨hk1, hk2⟩)]
        rw [List.length_nil, Nat.add_zero]
        exact h.pendOne g' u'
    · simp only [createJoinRequest, h1, if_neg hmem, if_neg hpen]
      exact h

theorem inv_denyJoinRequest (db : DB) (g r adm : Nat) (re : String) (h : Inv db) :
    Inv (denyJoinRequest db g r adm re).2 := by
  cases h1 : findGroup db g with
  | none => simp only [denyJoinRequest, h1]; exact h
  | some grp =>
  cases h2 : findJoinRequest db g r with
  | none => simp only [denyJoinRequest, h1, h2]; exact h
  | some req =>
  by_cases hstat : req.status ≠ ReqStatus.pending
  · simp only [denyJoinRequest, h1, h2, if_pos hstat]
    exact h
  · cases h3 : findUserGroup db adm g with
    | none =>
      simp only [denyJoinRequest, h1, h2, h3]
      rw [if_neg hstat]
      exact h
    | some dau =>
    cases h4 : findGroupMember db g adm with
    | none =>
      simp only [denyJoinRequest, h1, h2, h3, h4]
      rw [if_neg hstat]
      exact h
    | some da =>
    by_cases hadm : da.isAdmin = true
    · simp only [denyJoinRequest, h1, h2, h3, h4, hadm, if_true]
      rw [if_neg hstat]
      refine ⟨h.bucketIdBound, h.bucketIdNodup, h.remLe, h.perBucket, h.consRef,
        h.activeOwned, h.oneAdmin, h.balUG, h.balGM, ?_, h.agg⟩
      intro g' u'
      show (pendingForL _ g' u').length ≤ 1
      refine Nat.le_trans (pendingForL_map_length_le db.joinRequests _ g' u' ?_)
        (h.pendOne g' u')
      intro r2
      by_cases hk : (r2.id == r && r2.groupId == g) = true
      · right
        rw [if_pos hk]
        simp
      · left
        rw [if_neg hk]
    · rw [Bool.not_eq_true] at hadm
      simp only [denyJoinRequest, h1, h2, h3, h4, hadm]
      rw [if_neg hstat, if_neg (show ¬(false = true) from by simp)]
      exact h

theorem inv_approveJoinRequest (db : DB) (g r adm : Nat) (re : Option String) (h : Inv db) :
    Inv (approveJoinRequest db g r adm re).2 := by
  cases h1 : findGroup db g with
  | none => simp only [approveJoinRequest, h1]; exact h
  | some grp =>
  cases h2 : findJoinRequest db g r with
  | none => simp only [approveJoinRequest, h1, h2]; exact h
  | some req =>
  by_cases hstat : req.status ≠ ReqStatus.pending
  · simp only [approveJoinRequest, h1, h2, if_pos hstat]
    exact h
  · cases h3 : findUserGroup db adm g with
    | none =>
      simp only [approveJoinRequest, h1, h2, h3]
      rw [if_neg hstat]
      exact h
    | some dau =>
    cases h4 : findGroupMember db g adm with
    | none =>
      simp only [approveJoinRequest, h1, h2, h3, h4]
      rw [if_neg hstat]
      exact h
    | some da =>
    by_cases hadm : da.isAdmin = true
    · have hdb1 : Inv { db with joinRequests := db.joinRequests.map (fun r2 =>
          if r2.id == r && r2.groupId == g then
            { r2 with
              status := ReqStatus.approved, adminUserId := some adm,
              processedAt := some db.now, reason := some (re.getD "Approved by admin") }
          else r2) } := by
        refine ⟨h.bucketIdBound, h.bucketIdNodup, h.remLe, h.perBucket, h.consRef,
          h.activeOwned, h.oneAdmin, h.balUG, h.balGM, ?_, h.agg⟩
        intro g' u'
        show (pendingForL _ g' u').length ≤ 1
        refine Nat.le_trans (pendingForL_map_length_le db.joinRequests _ g' u' ?_)
          (h.pendOne g' u')
        intro r2
        by_cases hk : (r2.id == r && r2.groupId == g) = true
        · right
          rw [if_pos hk]
          simp
        · left
          rw [if_neg hk]
      simp only [approveJoinRequest, h1, h2, h3, h4, hadm, if_true]
      rw [if_neg hstat]
      rcases hcall : addUserToGroup { db with joinRequests := db.joinRequests.map (fun r2 =>
          if r2.id == r && r2.groupId == g then
            { r2 with
              status := ReqStatus.approved, adminUserId := some adm,
              processedAt := some db.now, reason := some (re.getD "Approved by admin") }
          else r2) } req.userId g (some false) with ⟨res, db2⟩
      have hinv2 := inv_addUserToGroup _ req.userId g (some false) hdb1
      rw [hcall] at hinv2
      cases res with
      | ok v => exact hinv2
      | error e => exact hinv2
    · rw [Bool.not_eq_true] at hadm
      simp only [approveJoinRequest, h1, h2, h3, h4, hadm]
      rw [if_neg hstat, if_neg (show ¬(false = true) from by simp)]
      exact h

theorem mem_of_head?_eq {α : Type} {l : List α} {x : α} (h : l.head? = some x) : x ∈ l := by
  cases l with
  | nil => exact absurd h (by simp)
  | cons a t =>
    simp only [List.head?_cons, Option.some.injEq] at h
    rw [← h]
    exact List.mem_cons_self a t

theorem eq_of_mem_of_id_eq {l : List Bucket} (hnd : (l.map Bucket.id).Nodup)
    {b1 b2 : Bucket} (hb1 : b1 ∈ l) (hb2 : b2 ∈ l) (hid : b1.id = b2.id) : b1 = b2 := by
  obtain ⟨l1, l2, rfl, hs1, hs2⟩ := mem_decomp_of_nodup_id l hnd b1 hb1
  rcases List.mem_append.mp hb2 with hm | hm
  · exact absurd hid.symm (hs1 b2 hm)
  · rcases List.mem_cons.mp hm with rfl | hm
    · rfl
    · exact absurd hid.symm (hs2 b2 hm)

theorem inv_purchaseBuckets (db : DB) (g u n k : Nat) (h : Inv db) :
    Inv (purchaseBuckets db g u n k).2 := by
  cases h1 : findUserGroup db u g with
  | none => simp only [purchaseBuckets, h1]; exact h
  | some du =>
  cases h2 : findGroupMember db g u with
  | none => simp only [purchaseBuckets, h1, h2]; exact h
  | some dg =>
  cases hdu : du.activeBucketId with
  | some b0 =>
    simp only [purchaseBuckets, h1, h2, hdu]
    refine ⟨?_, ?_, ?_, ?_, ?_, ?_, ?_, ?_, ?_, h.pendOne, ?_⟩
    · intro b hb
      dsimp only at hb ⊢
      rcases List.mem_append.mp hb with hm | hm
      · have := h.bucketIdBound b hm
        omega
      · obtain ⟨i, hi, rfl⟩ := List.mem_map.mp hm
        have := range_offset_mem hi
        simpa using this.2
    · dsimp only
      rw [List.map_append, purchase_new_map_id]
      refine List.Nodup.append h.bucketIdNodup (range_offset_nodup db.nextId n) ?_
      intro x hx1 hx2
      obtain ⟨b, hb, rfl⟩ := List.mem_map.mp hx1
      have hlt := h.bucketIdBound b hb
      have hge := (range_offset_mem hx2).1
      omega
    · intro b hb
      dsimp only at hb
      rcases List.mem_append.mp hb with hm | hm
      · exact h.remLe b hm
      · obtain ⟨i, hi, rfl⟩ := List.mem_map.mp hm
        exact Nat.le_refl k
    · intro b hb
      dsimp only at hb
      rcases List.mem_append.mp hb with hm | hm
      · exact h.perBucket b hm
      · obtain ⟨i, hi, rfl⟩ := List.mem_map.mp hm
        show consumedForL db.consumptions i = k - k
        rw [Nat.sub_self]
        apply consumedForL_eq_zero
        intro c hc
        obtain ⟨bc, hbc, hbcid, -, -⟩ := h.consRef c hc
        have hb1 := h.bucketIdBound bc hbc
        have hge := (range_offset_mem hi).1
        omega
    · intro c hc
      obtain ⟨bc, hbc, hps⟩ := h.consRef c hc
      exact ⟨bc, List.mem_append_left _ hbc, hps⟩
    · intro u2 g2 d hd i hi
      have hd2 : findMirror (modMirror db.userGroups u g
          (fun d => { d with activeBucketId := some b0 })) u2 g2 = some d := hd
      by_cases hk : u2 = u ∧ g2 = g
      · obtain ⟨rfl, rfl⟩ := hk
        rw [findMirror_modMirror_self,
          show findMirror db.userGroups u2 g2 = some du from h1] at hd2
        simp only [Option.map_some', Option.some.injEq] at hd2
        rw [← hd2] at hi
        simp only [Option.some.injEq] at hi
        obtain ⟨bw, hbw, hbwp⟩ := h.activeOwned u2 g2 du h1 b0 hdu
        exact ⟨bw, List.mem_append_left _ hbw, hi ▸ hbwp⟩
      · rw [findMirror_modMirror_ne db.userGroups u g u2 g2
          (fun d => { d with activeBucketId := some b0 }) hk] at hd2
        obtain ⟨bw, hbw, hbwp⟩ := h.activeOwned u2 g2 d hd2 i hi
        exact ⟨bw, List.mem_append_left _ hbw, hbwp⟩
    · exact oneAdmin_modMirror db g u
        (fun d => { d with activeBucketId := some b0 }) (fun d => rfl) h.oneAdmin
    · exact balance_le_modMirror db.userGroups u g
        (fun d => { d with activeBucketId := some b0 }) h.balUG (fun d hd => hd)
    · exact balance_le_modMirror db.groupMembers g u
        (fun d => { d with activeBucketId := some b0 }) h.balGM (fun d hd => hd)
    · intro g2 u2
      simp only [sumRemaining, sumConsumed, sumUnits]
      rw [sumRemainingL_append, sumUnitsL_append, purchase_new_sumRemaining,
        purchase_new_sumUnits]
      have ha := h.agg g2 u2
      unfold sumRemaining sumConsumed sumUnits at ha
      omega
  | none =>
    simp only [purchaseBuckets, h1, h2, hdu]
    refine ⟨?_, ?_, ?_, ?_, ?_, ?_, ?_, ?_, ?_, h.pendOne, ?_⟩
    · intro b hb
      dsimp only at hb ⊢
      rcases List.mem_append.mp hb with hm | hm
      · have := h.bucketIdBound b hm
        omega
      · obtain ⟨i, hi, rfl⟩ := List.mem_map.mp hm
        have := range_offset_mem hi
        simpa using this.2
    · dsimp only
      rw [List.map_append, purchase_new_map_id]
      refine List.Nodup.append h.bucketIdNodup (range_offset_nodup db.nextId n) ?_
      intro x hx1 hx2
      obtain ⟨b, hb, rfl⟩ := List.mem_map.mp hx1
      have hlt := h.bucketIdBound b hb
      have hge := (range_offset_mem hx2).1
      omega
    · intro b hb
      dsimp only at hb
      rcases List.mem_append.mp hb with hm | hm
      · exact h.remLe b hm
      · obtain ⟨i, hi, rfl⟩ := List.mem_map.mp hm
        exact Nat.le_refl k
    · intro b hb
      dsimp only at hb
      rcases List.mem_append.mp hb with hm | hm
      · exact h.perBucket b hm
      · obtain ⟨i, hi, rfl⟩ := List.mem_map.mp hm
        show consumedForL db.consumptions i = k - k
        rw [Nat.sub_self]
        apply consumedForL_eq_zero
        intro c hc
        obtain ⟨bc, hbc, hbcid, -, -⟩ := h.consRef c hc
        have hb1 := h.bucketIdBound bc hbc
        have hge := (range_offset_mem hi).1
        omega
    · intro c hc
      obtain ⟨bc, hbc, hps⟩ := h.consRef c hc
      exact ⟨bc, List.mem_append_left _ hbc, hps⟩
    · intro u2 g2 d hd i hi
      have hd2 : findMirror (modMirror db.userGroups u g
          (fun d => { d with
            activeBucketId := ((List.range n).map (fun i => db.nextId + i)).head? }))
          u2 g2 = some d := hd
      by_cases hk : u2 = u ∧ g2 = g
      · obtain ⟨rfl, rfl⟩ := hk
        rw [findMirror_modMirror_self,
          show findMirror db.userGroups u2 g2 = some du from h1] at hd2
        simp only [Option.map_some', Option.some.injEq] at hd2
        rw [← hd2] at hi
        simp only at hi
        have hmem : i ∈ (List.range n).map (fun i => db.nextId + i) := mem_of_head?_eq hi
        exact ⟨_, List.mem_append_right _ (List.mem_map_of_mem _ hmem), rfl, rfl, rfl⟩
      · rw [findMirror_modMirror_ne db.userGroups u g u2 g2
          (fun d => { d with
            activeBucketId := ((List.range n).map (fun i => db.nextId + i)).head? }) hk]
          at hd2
        obtain ⟨bw, hbw, hbwp⟩ := h.activeOwned u2 g2 d hd2 i hi
        exact ⟨bw, List.mem_append_left _ hbw, hbwp⟩
    · exact oneAdmin_modMirror db g u
        (fun d => { d with
          activeBucketId := ((List.range n).map (fun i => db.nextId + i)).head? })
        (fun d => rfl) h.oneAdmin
    · exact balance_le_modMirror db.userGroups u g
        (fun d => { d with
          activeBucketId := ((List.range n).map (fun i => db.nextId + i)).head? })
        h.balUG (fun d hd => hd)
    · exact balance_le_modMirror db.groupMembers g u
        (fun d => { d with
          activeBucketId := ((List.range n).map (fun i => db.nextId + i)).head? })
        h.balGM (fun d hd => hd)
    · intro g2 u2
      simp only [sumRemaining, sumConsumed, sumUnits]
      rw [sumRemainingL_append, sumUnitsL_append, purchase_new_sumRemaining,
        purchase_new_sumUnits]
      have ha := h.agg g2 u2
      unfold sumRemaining sumConsumed sumUnits at ha
      omega

theorem inv_recordConsumption (db : DB) (g u w : Nat) (h : Inv db) :
    Inv (recordConsumption db g u w).2 := by
  cases h1 : findUserGroup db u g with
  | none => simp only [recordConsumption, h1]; exact h
  | some du =>
  cases h2 : findGroupMember db g u with
  | none => simp only [recordConsumption, h1, h2]; exact h
  | some dg =>
  cases hact : du.activeBucketId with
  | none => simp only [recordConsumption, h1, h2, hact]; exact h
  | some bId =>
  cases hbk : findBucketIn db g bId with
  | none => simp only [recordConsumption, h1, h2, hact, hbk]; exact h
  | some bk =>
  by_cases hlt : bk.remainingUnits < w
  · simp only [recordConsumption, h1, h2, hact, hbk]
    rw [if_pos hlt]
    exact h
  · have hfb := findBucketIn_eq_some hbk
    obtain ⟨bo, hbo, hoid, hog, hou⟩ := h.activeOwned u g du h1 bId hact
    have hbobk : bo = bk :=
      eq_of_mem_of_id_eq h.bucketIdNodup hbo hfb.1 (hoid.trans hfb.2.1.symm)
    have hku : bk.userId = u := by rw [← hbobk]; exact hou
    obtain ⟨l1, l2, hsplit, hs1, hs2⟩ :=
      mem_decomp_of_nodup_id db.buckets h.bucketIdNodup bk hfb.1
    have hs1' : ∀ x ∈ l1, x.id ≠ bId := fun x hx => by rw [← hfb.2.1]; exact hs1 x hx
    have hs2' : ∀ x ∈ l2, x.id ≠ bId := fun x hx => by rw [← hfb.2.1]; exact hs2 x hx
    simp only [recordConsumption, h1, h2, hact, hbk]
    rw [if_neg hlt]
    by_cases hz : bk.remainingUnits - w = 0
    · rw [if_pos hz]
      have hmodz : modBucket db.buckets g bId
          (fun b => { b with remainingUnits := 0, status := BucketStatus.completed }) =
          l1 ++ { bk with remainingUnits := 0, status := BucketStatus.completed } :: l2 := by
        rw [hsplit]
        exact modBucket_decomp l1 l2 bk g bId _ hs1' hs2' hfb.2.1 hfb.2.2
      refine ⟨?_, ?_, ?_, ?_, ?_, ?_, ?_, ?_, ?_, h.pendOne, ?_⟩
      · intro b hb
        dsimp only at hb ⊢
        obtain ⟨b0, hb0, rfl⟩ := List.mem_map.mp hb
        have hbd := h.bucketIdBound b0 hb0
        by_cases hc : (b0.id == bId && b0.groupId == g) = true
        · rw [if_pos hc]
          show b0.id < db.nextId + 1
          omega
        · rw [if_neg hc]
          show b0.id < db.nextId + 1
          omega
      · dsimp only
        unfold modBucket
        rw [List.map_map]
        have he : db.buckets.map (Bucket.id ∘ fun b =>
            if b.id == bId && b.groupId == g
            then { b with remainingUnits := 0, status := BucketStatus.completed } else b) =
            db.buckets.map Bucket.id := by
          apply List.map_congr_left
          intro b hb
          by_cases hc : (b.id == bId && b.groupId == g) = true
          · rw [Function.comp_apply, if_pos hc]
          · rw [Function.comp_apply, if_neg hc]
        rw [he]
        exact h.bucketIdNodup
      · intro b hb
        dsimp only at hb
        obtain ⟨b0, hb0, rfl⟩ := List.mem_map.mp hb
        have hrl := h.remLe b0 hb0
        by_cases hc : (b0.id == bId && b0.groupId == g) = true
        · rw [if_pos hc]
          show (0 : Nat) ≤ b0.unitsInBucket
          exact Nat.zero_le _
        · rw [if_neg hc]
          exact hrl
      · intro b hb
        dsimp only at hb
        obtain ⟨b0, hb0, rfl⟩ := List.mem_map.mp hb
        have hpb := h.perBucket b0 hb0
        unfold consumedFor at hpb
        by_cases hc : (b0.id == bId && b0.groupId == g) = true
        · rw [if_pos hc]
          simp only [Bool.and_eq_true, beq_iff_eq] at hc
          have hbk0 : b0 = bk :=
            eq_of_mem_of_id_eq h.bucketIdNodup hb0 hfb.1 (hc.1.trans hfb.2.1.symm)
          rw [hbk0] at hpb ⊢
          show consumedForL (db.consumptions ++
            [{ id := db.nextId, groupId := g, userId := u, units := w, bucketId := bId,
               consumedAt := db.now }]) bk.id = bk.unitsInBucket - 0
          rw [consumedForL_append, consumedForL_singleton]
          dsimp only
          rw [if_pos hfb.2.1.symm]
          have hrl := h.remLe bk hfb.1
          omega
        · rw [if_neg hc]
          show consumedForL (db.consumptions ++
            [{ id := db.nextId, groupId := g, userId := u, units := w, bucketId := bId,
               consumedAt := db.now }]) b0.id = b0.unitsInBucket - b0.remainingUnits
          rw [consumedForL_append, consumedForL_singleton]
          dsimp only
          have hne : ¬(bId = b0.id) := by
            intro hcc
            have hbk0 : b0 = bk :=
              eq_of_mem_of_id_eq h.bucketIdNodup hb0 hfb.1 (hcc.symm.trans hfb.2.1.symm)
            apply hc
            simp [hbk0, hfb.2.1, hfb.2.2]
          rw [if_neg hne, Nat.add_zero]
          exact hpb
      · intro c hc
        have hc2 : c ∈ db.consumptions ++
            [{ id := db.nextId, groupId := g, userId := u, units := w, bucketId := bId,
               consumedAt := db.now }] := hc
        rcases List.mem_append.mp hc2 with hm | hm
        · obtain ⟨bw, hbw, e1, e2, e3⟩ := h.consRef c hm
          obtain ⟨b2, hb2, f1, f2, f3⟩ := mem_modBucket_fields db.buckets g bId
            (fun b => { b with remainingUnits := 0, status := BucketStatus.completed })
            (fun b => ⟨rfl, rfl, rfl⟩) bw hbw
          exact ⟨b2, hb2, f1.trans e1, f2.trans e2, f3.trans e3⟩
        · rcases List.mem_singleton.mp hm with rfl
          obtain ⟨b2, hb2, f1, f2, f3⟩ := mem_modBucket_fields db.buckets g bId
            (fun b => { b with remainingUnits := 0, status := BucketStatus.completed })
            (fun b => ⟨rfl, rfl, rfl⟩) bk hfb.1
          exact ⟨b2, hb2, f1.trans hfb.2.1, f2.trans hfb.2.2, f3.trans hku⟩
      · intro u2 g2 d hd i hi
        have hd2 : findMirror (modMirror db.userGroups u g
            (fun d => { d with activeBucketId := nextActiveBucketId db g u bId })) u2 g2 =
            some d := hd
        by_cases hk : u2 = u ∧ g2 = g
        · obtain ⟨rfl, rfl⟩ := hk
          rw [findMirror_modMirror_self,
            show findMirror db.userGroups u2 g2 = some du from h1] at hd2
          simp only [Option.map_some', Option.some.injEq] at hd2
          rw [← hd2] at hi
          dsimp only at hi
          obtain ⟨bw, hbw, hbwid, hcand, -⟩ := nextActiveBucketId_some hi
          obtain ⟨b2, hb2, f1, f2, f3⟩ := mem_modBucket_fields db.buckets g2 bId
            (fun b => { b with remainingUnits := 0, status := BucketStatus.completed })
            (fun b => ⟨rfl, rfl, rfl⟩) bw hbw
          exact ⟨b2, hb2, f1.trans hbwid, f2.trans hcand.1, f3.trans hcand.2.1⟩
        · rw [findMirror_modMirror_ne db.userGroups u g u2 g2
            (fun d => { d with activeBucketId := nextActiveBucketId db g u bId }) hk] at hd2
          obtain ⟨bw, hbw, e1, e2, e3⟩ := h.activeOwned u2 g2 d hd2 i hi
          obtain ⟨b2, hb2, f1, f2, f3⟩ := mem_modBucket_fields db.buckets g bId
            (fun b => { b with remainingUnits := 0, status := BucketStatus.completed })
            (fun b => ⟨rfl, rfl, rfl⟩) bw hbw
          exact ⟨b2, hb2, f1.trans e1, f2.trans e2, f3.trans e3⟩
      · exact oneAdmin_modMirror db g u
          (fun d => { d with activeBucketId := nextActiveBucketId db g u bId })
          (fun d => rfl) h.oneAdmin
      · exact balance_le_modMirror db.userGroups u g
          (fun d => { d with activeBucketId := nextActiveBucketId db g u bId })
          h.balUG (fun d hd => hd)
      · exact balance_le_modMirror db.groupMembers g u
          (fun d => { d with activeBucketId := nextActiveBucketId db g u bId })
          h.balGM (fun d hd => hd)
      · intro g2 u2
        simp only [sumRemaining, sumConsumed, sumUnits]
        rw [hmodz, sumRemainingL_append, sumRemainingL_cons, sumUnitsL_append,
          sumUnitsL_cons, sumConsumedL_append, sumConsumedL_singleton]
        dsimp only
        simp only [hfb.2.2, hku]
        have ha := h.agg g2 u2
        unfold sumRemaining sumConsumed sumUnits at ha
        rw [hsplit, sumRemainingL_append, sumRemainingL_cons, sumUnitsL_append,
          sumUnitsL_cons] at ha
        simp only [hfb.2.2, hku] at ha
        by_cases hgu : g = g2 ∧ u = u2
        · simp only [if_pos hgu] at ha ⊢
          omega
        · simp only [if_neg hgu] at ha ⊢
          omega
    · rw [if_neg hz]
      have hmodn : modBucket db.buckets g bId
          (fun b => { b with remainingUnits := bk.remainingUnits - w }) =
          l1 ++ { bk with remainingUnits := bk.remainingUnits - w } :: l2 := by
        rw [hsplit]
        exact modBucket_decomp l1 l2 bk g bId _ hs1' hs2' hfb.2.1 hfb.2.2
      refine ⟨?_, ?_, ?_, ?_, ?_, ?_, ?_, ?_, ?_, h.pendOne, ?_⟩
      · intro b hb
        dsimp only at hb ⊢
        obtain ⟨b0, hb0, rfl⟩ := List.mem_map.mp hb
        have hbd := h.bucketIdBound b0 hb0
        by_cases hc : (b0.id == bId && b0.groupId == g) = true
        · rw [if_pos hc]
          show b0.id < db.nextId + 1
          omega
        · rw [if_neg hc]
          show b0.id < db.nextId + 1
          omega
      · dsimp only
        unfold modBucket
        rw [List.map_map]
        have he : db.buckets.map (Bucket.id ∘ fun b =>
            if b.id == bId && b.groupId == g
            then { b with remainingUnits := bk.remainingUnits - w } else b) =
            db.buckets.map Bucket.id := by
          apply List.map_congr_left
          intro b hb
          by_cases hc : (b.id == bId && b.groupId == g) = true
          · rw [Function.comp_apply, if_pos hc]
          · rw [Function.comp_apply, if_neg hc]
        rw [he]
        exact h.bucketIdNodup
      · intro b hb
        dsimp only at hb
        obtain ⟨b0, hb0, rfl⟩ := List.mem_map.mp hb
        have hrl := h.remLe b0 hb0
        by_cases hc : (b0.id == bId && b0.groupId == g) = true
        · rw [if_pos hc]
          simp only [Bool.and_eq_true, beq_iff_eq] at hc
          have hbk0 : b0 = bk :=
            eq_of_mem_of_id_eq h.bucketIdNodup hb0 hfb.1 (hc.1.trans hfb.2.1.symm)
          rw [hbk0]
          show bk.remainingUnits - w ≤ bk.unitsInBucket
          have := h.remLe bk hfb.1
          omega
        · rw [if_neg hc]
          exact hrl
      · intro b hb
        dsimp only at hb
        obtain ⟨b0, hb0, rfl⟩ := List.mem_map.mp hb
        have hpb := h.perBucket b0 hb0
        unfold consumedFor at hpb
        by_cases hc : (b0.id == bId && b0.groupId == g) = true
        · rw [if_pos hc]
          simp only [Bool.and_eq_true, beq_iff_eq] at hc
          have hbk0 : b0 = bk :=
            eq_of_mem_of_id_eq h.bucketIdNodup hb0 hfb.1 (hc.1.trans hfb.2.1.symm)
          rw [hbk0] at hpb ⊢
          show consumedForL (db.consumptions ++
            [{ id := db.nextId, groupId := g, userId := u, units := w, bucketId := bId,
               consumedAt := db.now }]) bk.id = bk.unitsInBucket - (bk.remainingUnits - w)
          rw [consumedForL_append, consumedForL_singleton]
          dsimp only
          rw [if_pos hfb.2.1.symm]
          have hrl := h.remLe bk hfb.1
          omega
        · rw [if_neg hc]
          show consumedForL (db.consumptions ++
            [{ id := db.nextId, groupId := g, userId := u, units := w, bucketId := bId,
               consumedAt := db.now }]) b0.id = b0.unitsInBucket - b0.remainingUnits
          rw [consumedForL_append, consumedForL_singleton]
          dsimp only
          have hne : ¬(bId = b0.id) := by
            intro hcc
            have hbk0 : b0 = bk :=
              eq_of_mem_of_id_eq h.bucketIdNodup hb0 hfb.1 (hcc.symm.trans hfb.2.1.symm)
            apply hc
            simp [hbk0, hfb.2.1, hfb.2.2]
          rw [if_neg hne, Nat.add_zero]
          exact hpb
      · intro c hc
        have hc2 : c ∈ db.consumptions ++
            [{ id := db.nextId, groupId := g, userId := u, units := w, bucketId := bId,
               consumedAt := db.now }] := hc
        rcases List.mem_append.mp hc2 with hm | hm
        · obtain ⟨bw, hbw, e1, e2, e3⟩ := h.consRef c hm
          obtain ⟨b2, hb2, f1, f2, f3⟩ := mem_modBucket_fields db.buckets g bId
            (fun b => { b with remainingUnits := bk.remainingUnits - w })
            (fun b => ⟨rfl, rfl, rfl⟩) bw hbw
          exact ⟨b2, hb2, f1.trans e1, f2.trans e2, f3.trans e3⟩
        · rcases List.mem_singleton.mp hm with rfl
          obtain ⟨b2, hb2, f1, f2, f3⟩ := mem_modBucket_fields db.buckets g bId
            (fun b => { b with remainingUnits := bk.remainingUnits - w })
            (fun b => ⟨rfl, rfl, rfl⟩) bk hfb.1
          exact ⟨b2, hb2, f1.trans hfb.2.1, f2.trans hfb.2.2, f3.trans hku⟩
      · intro u2 g2 d hd i hi
        have hd2 : findUserGroup db u2 g2 = some d := hd
        obtain ⟨bw, hbw, e1, e2, e3⟩ := h.activeOwned u2 g2 d hd2 i hi
        obtain ⟨b2, hb2, f1, f2, f3⟩ := mem_modBucket_fields db.buckets g bId
          (fun b => { b with remainingUnits := bk.remainingUnits - w })
          (fun b => ⟨rfl, rfl, rfl⟩) bw hbw
        exact ⟨b2, hb2, f1.trans e1, f2.trans e2, f3.trans e3⟩
      · exact h.oneAdmin
      · exact h.balUG
      · exact h.balGM
      · intro g2 u2
        simp only [sumRemaining, sumConsumed, sumUnits]
        rw [hmodn, sumRemainingL_append, sumRemainingL_cons, sumUnitsL_append,
          sumUnitsL_cons, sumConsumedL_append, sumConsumedL_singleton]
        dsimp only
        simp only [hfb.2.2, hku]
        have ha := h.agg g2 u2
        unfold sumRemaining sumConsumed sumUnits at ha
        rw [hsplit, sumRemainingL_append, sumRemainingL_cons, sumUnitsL_append,
          sumUnitsL_cons] at ha
        simp only [hfb.2.2, hku] at ha
        by_cases hgu : g = g2 ∧ u = u2
        · simp only [if_pos hgu] at ha ⊢
          omega
        · simp only [if_neg hgu] at ha ⊢
          omega

theorem inv_applyOp (db : DB) (op : Op) (h : Inv db) : Inv (applyOp db op) := by
  cases op with
  | newUser => exact inv_createUser db h
  | newGroup name => exact inv_createGroup db name h
  | join u g a => exact inv_addUserToGroup db u g a h
  | purchase g u n k => exact inv_purchaseBuckets db g u n k h
  | consume g u w => exact inv_recordConsumption db g u w h
  | adjust g u a adm => exact inv_updateUserBalance db g u a adm h
  | contribute g u a c => exact inv_createKittyTransaction db g u a c h
  | request g u m => exact inv_createJoinRequest db g u m h
  | approve g r adm re => exact inv_approveJoinRequest db g r adm re h
  | deny g r adm re => exact inv_denyJoinRequest db g r adm re h

theorem inv_stepDB (db : DB) (op : Op) (h : Inv db) : Inv (stepDB db op) :=
  inv_now (applyOp db op) _ (inv_applyOp db op h)

theorem reachable_inv {db : DB} (h : Reachable db) : Inv db := by
  induction h with
  | init => exact inv_empty
  | step op hr ih => exact inv_stepDB _ op ih

/-- C3: in every reachable state a group with at least one member has
exactly one admin membership (I4); a join into an empty group is forced
admin regardless of the requested flag, and a join with
requestedAdmin = true into a group that already has a member fails
AdminConflict (groupAlreadyHasAdmin). -/
theorem c3_single_admin (db : DB) (hr : Reachable db) :
    (∀ g, membersOf db g ≠ [] → adminCount db g = 1) ∧
    (∀ u g a, findUserGroup db u g = none → findGroupMember db g u = none →
      membersOf db g = [] →
      addUserToGroup db u g a = (.ok (), writeMembership db u g true) ∧
      findGroupMember (addUserToGroup db u g a).2 g u =
        some { balance := 0, isAdmin := true, activeBucketId := none,
               joinedAt := db.now }) ∧
    (∀ u g, findUserGroup db u g = none → findGroupMember db g u = none →
      membersOf db g ≠ [] →
      addUserToGroup db u g (some true) = (.error .groupAlreadyHasAdmin, db)) := by
  refine ⟨(reachable_inv hr).oneAdmin, ?_, ?_⟩
  · intro u g a h1 h2 hempty
    have hcond : ¬(((findUserGroup db u g).isSome ||
        (findGroupMember db g u).isSome) = true) := by
      rw [h1, h2]
      simp
    have hop : addUserToGroup db u g a = (.ok (), writeMembership db u g true) := by
      simp only [addUserToGroup]
      rw [if_neg hcond, if_pos (by rw [hempty]; rfl)]
    refine ⟨hop, ?_⟩
    rw [hop]
    exact findMirror_putMirror_self db.groupMembers g u
      { balance := 0, isAdmin := true, activeBucketId := none, joinedAt := db.now }
  · intro u g h1 h2 hne
    have hcond : ¬(((findUserGroup db u g).isSome ||
        (findGroupMember db g u).isSome) = true) := by
      rw [h1, h2]
      simp
    have hone := (reachable_inv hr).oneAdmin g hne
    simp only [addUserToGroup]
    rw [if_neg hcond,
      if_neg (show ¬((membersOf db g).isEmpty = true) from
        fun hc => hne (List.isEmpty_iff.mp hc)),
      if_pos True.intro, if_pos (by omega)]

/-- Witness for C3: in dbA3 group 1 has the single admin 0; the first
join into empty group 1 was forced admin; a later requested-admin join
fails groupAlreadyHasAdmin. -/
theorem c3_single_admin_witness :
    adminCount dbA3 1 = 1 ∧
    addUserToGroup dbA2 0 1 none = (.ok (), writeMembership dbA2 0 1 true) ∧
    addUserToGroup dbA3 5 1 (some true) = (.error .groupAlreadyHasAdmin, dbA3) := by
  have h3 := c3_single_admin dbA3 (Reachable.step (Op.join 0 1 none)
    (Reachable.step (Op.newGroup "g") (Reachable.step Op.newUser Reachable.init)))
  have h2 := c3_single_admin dbA2
    (Reachable.step (Op.newGroup "g") (Reachable.step Op.newUser Reachable.init))
  exact ⟨h3.1 1 (by decide),
    (h2.2.1 0 1 none (by decide) (by decide) (by decide)).1,
    h3.2.2 5 1 (by decide) (by decide) (by decide)⟩

/-- C7: in every reachable state, for every member the sum of
remainingUnits over their buckets plus the sum of units over their
consumption records equals the sum of unitsInBucket over their buckets,
and per bucket the consumed units equal unitsInBucket minus
remainingUnits (I6). -/
theorem c7_units_conservation (db : DB) (hr : Reachable db) :
    (∀ g u, sumRemaining db g u + sumConsumed db g u = sumUnits db g u) ∧
    (∀ b ∈ db.buckets, consumedFor db b.id = b.unitsInBucket - b.remainingUnits) :=
  ⟨(reachable_inv hr).agg, (reachable_inv hr).perBucket⟩

/-- Witness for C7 at dbA5, the state after purchasing two 5-unit
buckets and consuming 5 units. -/
theorem c7_units_conservation_witness :
    sumRemaining dbA5 1 0 + sumConsumed dbA5 1 0 = sumUnits dbA5 1 0 :=
  (c7_units_conservation dbA5 (Reachable.step (Op.consume 1 0 5)
    (Reachable.step (Op.purchase 1 0 2 5)
      (Reachable.step (Op.join 0 1 none)
        (Reachable.step (Op.newGroup "g")
          (Reachable.step Op.newUser Reachable.init)))))).1 1 0

/-- C9: request fails AlreadyMember when a membership mirror exists,
DuplicateRequest when a pending request for the pair exists, and
otherwise appends a new pending request; and in every reachable state
there is at most one pending request per (userId, groupId) (I7). -/
theorem c9_request_pending_unique (db : DB) (hr : Reachable db) :
    (∀ g u, (pendingRequestsFor db g u).length ≤ 1) ∧
    (∀ g u m grp, findGroup db g = some grp →
      (((findUserGroup db u g).isSome ∨ (findGroupMember db g u).isSome) →
        createJoinRequest db g u m = (.error .alreadyMember, db)) ∧
      (findUserGroup db u g = none → findGroupMember db g u = none →
        pendingRequestsFor db g u ≠ [] →
        createJoinRequest db g u m = (.error .duplicateRequest, db)) ∧
      (findUserGroup db u g = none → findGroupMember db g u = none →
        pendingRequestsFor db g u = [] →
        createJoinRequest db g u m = (.ok db.nextId,
          { db with
            joinRequests := db.joinRequests ++
              [{ id := db.nextId, groupId := g, userId := u, message := m.getD "",
                 status := ReqStatus.pending, createdAt := db.now,
                 adminUserId := none, processedAt := none, reason := none }],
            nextId := db.nextId + 1 }))) := by
  refine ⟨(reachable_inv hr).pendOne, ?_⟩
  intro g u m grp hg
  refine ⟨?_, ?_, ?_⟩
  · intro hmem
    have hcond : ((findUserGroup db u g).isSome ||
        (findGroupMember db g u).isSome) = true := by
      rw [Bool.or_eq_true]
      rcases hmem with hm | hm
      · exact Or.inl hm
      · exact Or.inr hm
    simp only [createJoinRequest, hg]
    rw [if_pos hcond]
  · intro h1 h2 hne
    have hcond : ¬(((findUserGroup db u g).isSome ||
        (findGroupMember db g u).isSome) = true) := by
      rw [h1, h2]
      simp
    simp only [createJoinRequest, hg]
    rw [if_neg hcond,
      if_neg (show ¬((pendingRequestsFor db g u).isEmpty = true) from
        fun hc => hne (List.isEmpty_iff.mp hc))]
  · intro h1 h2 hpend
    have hcond : ¬(((findUserGroup db u g).isSome ||
        (findGroupMember db g u).isSome) = true) := by
      rw [h1, h2]
      simp
    simp only [createJoinRequest, hg]
    rw [if_neg hcond, if_pos (by rw [hpend]; rfl)]

/-- Witness for C9: in dbJ2 the pair (2, group 1) has one pending
request and a second request fails duplicateRequest; in dbJ3, after the
approve made user 2 a member, a further request fails alreadyMember. -/
theorem c9_request_pending_unique_witness :
    (pendingRequestsFor dbJ2 1 2).length ≤ 1 ∧
    createJoinRequest dbJ2 1 2 none = (.error .duplicateRequest, dbJ2) ∧
    createJoinRequest dbJ3 1 2 none = (.error .alreadyMember, dbJ3) := by
  have hJ2 := c9_request_pending_unique dbJ2 (Reachable.step (Op.request 1 2 none)
    (Reachable.step Op.newUser (Reachable.step (Op.join 0 1 none)
      (Reachable.step (Op.newGroup "g") (Reachable.step Op.newUser Reachable.init)))))
  have hJ3 := c9_request_pending_unique dbJ3 (Reachable.step (Op.approve 1 3 0 none)
    (Reachable.step (Op.request 1 2 none)
      (Reachable.step Op.newUser (Reachable.step (Op.join 0 1 none)
        (Reachable.step (Op.newGroup "g") (Reachable.step Op.newUser Reachable.init))))))
  refine ⟨hJ2.1 1 2, ?_, ?_⟩
  · exact (hJ2.2 1 2 none _ rfl).2.1 (by decide) (by decide) (by decide)
  · exact (hJ3.2 1 2 none _ rfl).1 (Or.inl (by decide))

end KittyFB
